import Mathlib

/-!
query-man: the tab / query synchronisation of `src/App.jsx`

A shallow embedding of the `App` component of `src/App.jsx`: the two guarded
synchronisation effects (tab->text, text->tab), the auto-naming effect with its
regular expression, the query-selector reset effect, the full-screen check
effect, the clear-error effect, the title of the results toolbar, and the
handlers `handleQueryChange`, `handleExecuteQuery`, `handleClearResults`,
`handleHistorySelect` and `handleTableClick`.

React state cells are fields of `AppState`; the two `useRef` guards are Boolean
fields that an effect body mutates at once. An effect body or handler is a
function from the state it is run in to an `Outcome`: the state after its
writes, and the calls it made to the collaborators it gets from the hooks.
JavaScript strings are modelled by Lean strings (sequences of Unicode scalar
values), so a text with a lone surrogate is outside the model.
-/

namespace QueryMan

/-! ## Strings: `String.prototype.trim` and the character classes of the regex -/

/-- The code points of ECMAScript `WhiteSpace` and `LineTerminator`: what `\s`
matches and what `trim` strips. -/
def jsSpaceCodes : List Nat :=
  [9, 10, 11, 12, 13, 32, 160, 0x1680,
   0x2000, 0x2001, 0x2002, 0x2003, 0x2004, 0x2005, 0x2006, 0x2007, 0x2008, 0x2009, 0x200A,
   0x2028, 0x2029, 0x202F, 0x205F, 0x3000, 0xFEFF]

/-- The class `\s`. -/
def isJsSpace (c : Char) : Bool := jsSpaceCodes.contains c.toNat

/-- The code points of ECMAScript `LineTerminator`: what `.` does not match. -/
def isLineTerminator (c : Char) : Bool := [10, 13, 0x2028, 0x2029].contains c.toNat

/-- The class `[^\s;]`. -/
def isTargetChar (c : Char) : Bool := !isJsSpace c && c != ';'

/-- `trim` on a character list: white space is dropped at both ends. -/
def jsTrimChars (cs : List Char) : List Char :=
  ((cs.dropWhile isJsSpace).reverse.dropWhile isJsSpace).reverse

/-- `String.prototype.trim`. -/
def jsTrim (s : String) : String := String.mk (jsTrimChars s.data)

/-! ## The auto-naming regular expression

`/^\s*(SELECT|INSERT|UPDATE|DELETE|CREATE|ALTER|DROP)\s+(?:.*?FROM\s+)?([^\s;]+)/i`,
matched by backtracking, each piece taking the rest of the pattern as its
continuation `k`. -/

/-- One pattern letter under the `i` flag (no `u` flag): a pattern letter `A`..`Z`
is matched by itself and by its ASCII lower-case form only, since
`Canonicalize` never maps a character above 127 to one below 128. -/
def ciCharEq (p c : Char) : Bool := c.toNat == p.toNat || c.toNat == p.toNat + 32

/-- A literal word of upper-case letters under the `i` flag: on a match, the
text it consumed (as written in the input) and the rest of the input. -/
def ciLit : List Char → List Char → Option (List Char × List Char)
  | [], cs => some ([], cs)
  | _ :: _, [] => none
  | p :: ps, c :: cs =>
    if ciCharEq p c then
      match ciLit ps cs with
      | some (m, rest) => some (c :: m, rest)
      | none => none
    else none

/-- The verbs of the first group, in the order of the alternation. -/
def sqlVerbs : List String :=
  ["SELECT", "INSERT", "UPDATE", "DELETE", "CREATE", "ALTER", "DROP"]

/-- The alternation `(SELECT|INSERT|UPDATE|DELETE|CREATE|ALTER|DROP)` followed by
the continuation `k`: the alternatives are tried in order, and the next one is
tried when the continuation fails. -/
def verbAltThen {α : Type} (k : List Char → List Char → Option α) :
    List String → List Char → Option α
  | [], _ => none
  | v :: vs, cs =>
    match (match ciLit v.data cs with
           | some (m, rest) => k m rest
           | none => none) with
    | some r => some r
    | none => verbAltThen k vs cs

/-- Greedy `\s*` followed by `k`: as many white-space characters as possible,
giving one back at a time while `k` fails. -/
def spacesStarThen {α : Type} (k : List Char → Option α) : List Char → Option α
  | [] => k []
  | c :: cs =>
    if isJsSpace c then
      match spacesStarThen k cs with
      | some r => some r
      | none => k (c :: cs)
    else k (c :: cs)

/-- Greedy `\s+` followed by `k`. -/
def spacesPlusThen {α : Type} (k : List Char → Option α) : List Char → Option α
  | [] => none
  | c :: cs => if isJsSpace c then spacesStarThen k cs else none

/-- Lazy `.*?` followed by `k`: `k` is tried first, and one more character
that is not a line terminator is consumed each time it fails. -/
def lazyDotsThen {α : Type} (k : List Char → Option α) : List Char → Option α
  | [] => k []
  | c :: cs =>
    match k (c :: cs) with
    | some r => some r
    | none => if isLineTerminator c then none else lazyDotsThen k cs

/-- The last group `([^\s;]+)`, greedy and at the end of the pattern: the
longest non-empty run of characters that are neither white space nor `;`. -/
def targetToken (cs : List Char) : Option (List Char) :=
  match cs.takeWhile isTargetChar with
  | [] => none
  | t => some t

/-- The word `FROM` under the `i` flag followed by `k`. -/
def fromThen {α : Type} (k : List Char → Option α) (cs : List Char) : Option α :=
  match ciLit "FROM".data cs with
  | some (_, rest) => k rest
  | none => none

/-- The tail `(?:.*?FROM\s+)?([^\s;]+)`: the optional group is greedy, so the
path through it is tried first and the path that skips it second. -/
def optFromTarget (cs : List Char) : Option (List Char) :=
  match lazyDotsThen (fromThen (spacesPlusThen targetToken)) cs with
  | some t => some t
  | none => targetToken cs

/-- The whole regex on a character list: the captures `(action, target)` of the
leftmost match starting at index 0, or `none`. The pattern is anchored by `^`,
so no later start is tried. -/
def nameRegexMatch (cs : List Char) : Option (List Char × List Char) :=
  spacesStarThen
    (verbAltThen
      (fun action rest =>
        match spacesPlusThen optFromTarget rest with
        | some target => some (action, target)
        | none => none)
      sqlVerbs)
    cs

/-- The name the auto-naming effect derives from a tab's query (lines 196-207):
the query is trimmed, the name starts as "New Query", and a match replaces it by
the template string of the action, a blank and the target. -/
def deriveTabName (query : String) : String :=
  match nameRegexMatch (jsTrimChars query.data) with
  | some (action, target) => String.mk (action ++ ' ' :: target)
  | none => "New Query"

/-! ## The data the component works on -/

/-- One entry of `predefinedQueries` (the Query Catalog; `data/mockData` is
outside `src/App.jsx`, so the catalog is a parameter throughout). -/
structure CatalogQuery where
  id : String
  name : String
  query : String
  deriving DecidableEq, Repr

/-- One element of `queryTabs`, with the fields `App.jsx` reads and writes. -/
structure QueryTab where
  id : String
  name : String
  renamed : Bool
  queryId : String
  query : String
  deriving DecidableEq, Repr

/-- One entry of `queryHistory`, with the fields `handleHistorySelect` reads. -/
structure HistoryItem where
  query : String
  queryId : String
  deriving DecidableEq, Repr

/-- One element of `outputTabs`. -/
structure OutputTab where
  id : String
  name : String
  queryId : String
  deriving DecidableEq, Repr

/-- The object literal passed to `updateQueryTab`: the fields it names. -/
structure TabPatch where
  name : Option String := none
  renamed : Option Bool := none
  queryId : Option String := none
  query : Option String := none
  deriving DecidableEq, Repr

/-- The state `App` holds or receives from its hooks, as far as the modelled
code reads or writes it. `isUpdatingTab` and `isUpdatingQuery` are the `.current`
of the two refs. -/
structure AppState where
  currentQueryId : String
  queryText : String
  customError : Option String
  queryModified : Bool
  queryTabs : List QueryTab
  activeTabId : String
  outputTabs : List OutputTab
  isUpdatingTab : Bool
  isUpdatingQuery : Bool
  sidebarOpen : Bool
  isFullScreen : Bool
  results : Option (List String)
  sqlError : Option String
  mobileHistoryOpen : Bool
  deriving DecidableEq, Repr

/-- The two callbacks handed to `setTimeout(..., 0)`. -/
inductive Deferred where
  | clearUpdatingTab
  | clearUpdatingQuery
  deriving DecidableEq, Repr

/-- A call to a collaborator that comes from a hook or the platform. -/
inductive Call where
  | updateQueryTab (id : String) (patch : TabPatch)
  | executeQueryAndCreateTab (query queryId label : String)
  | executeQuery (query queryId label : String)
  | setTimeout (cb : Deferred)
  | clearAllOutputTabs
  | clearResults
  | checkExitFullScreen (results : Option (List String))
  | createTabFromHistory (item : HistoryItem)
  deriving DecidableEq, Repr

/-- What running an effect body or a handler gives: the state after its
writes, the collaborator calls in the order made, and whether it ended in a
`TypeError` (a property read on `undefined`). -/
structure Outcome where
  state : AppState
  calls : List Call
  threw : Bool := false
  deriving DecidableEq, Repr

/-- Whether a call is an `updateQueryTab` call. -/
def Call.isUpdateQueryTab : Call → Bool
  | .updateQueryTab _ _ => true
  | _ => false

/-- Whether a call is an `executeQuery` call. -/
def Call.isExecuteQuery : Call → Bool
  | .executeQuery _ _ _ => true
  | _ => false

/-- Whether a call is a `clearResults` call. -/
def Call.isClearResults : Call → Bool
  | .clearResults => true
  | _ => false

/-- Whether a call reaches the executor side (`executeQuery` or
`executeQueryAndCreateTab`). -/
def Call.isExecution : Call → Bool
  | .executeQuery _ _ _ => true
  | .executeQueryAndCreateTab _ _ _ => true
  | _ => false

/-- The number of `updateQueryTab` calls in an outcome. -/
def Outcome.tabUpdates (o : Outcome) : Nat := o.calls.countP Call.isUpdateQueryTab

/-- The fields of a patch written over a tab. -/
def TabPatch.mergeInto (p : TabPatch) (t : QueryTab) : QueryTab :=
  { id := t.id
    name := p.name.getD t.name
    renamed := p.renamed.getD t.renamed
    queryId := p.queryId.getD t.queryId
    query := p.query.getD t.query }

/-- Modelled from the spec: `updateQueryTab` of the `useTabs` hook, which is not
in `src/App.jsx`. Spec 4.1: "`updateQueryTab(id, partialFields)` merges fields
into the tab". -/
def updateQueryTab (tabs : List QueryTab) (id : String) (p : TabPatch) : List QueryTab :=
  tabs.map fun t => if t.id = id then p.mergeInto t else t

/-- The lookup `queryTabs.find((t) => t.id === activeTabId)`. -/
def findTab (tabs : List QueryTab) (id : String) : Option QueryTab :=
  tabs.find? fun t => t.id == id

/-- The lookup `predefinedQueries.find((q) => q.id === queryId)`. -/
def findQuery (catalog : List CatalogQuery) (id : String) : Option CatalogQuery :=
  catalog.find? fun q => q.id == id

/-- The lookup `predefinedQueries.find((q) => q.query.trim() === query.trim())`. -/
def findMatchingQuery (catalog : List CatalogQuery) (query : String) : Option CatalogQuery :=
  catalog.find? fun q => jsTrim q.query == jsTrim query

/-- Running a deferred callback: it clears its guard. -/
def runDeferred (s : AppState) : Deferred → AppState
  | .clearUpdatingTab => { s with isUpdatingTab := false }
  | .clearUpdatingQuery => { s with isUpdatingQuery := false }

/-! ## The effects (lines 143-212 and 331-338) -/

/-- The tab->text effect body (lines 144-159). `activeTab` is the value the
`useTabs` hook supplies; when it is `undefined`, reading `activeTab.queryId`
throws after the guard was set and before anything else happened. -/
def tabToTextEffect (activeTab : Option QueryTab) (s : AppState) : Outcome :=
  if s.isUpdatingQuery then { state := s, calls := [] }
  else
    let s1 := { s with isUpdatingTab := true }
    match activeTab with
    | none => { state := s1, calls := [], threw := true }
    | some tab =>
      { state := { s1 with currentQueryId := tab.queryId, queryText := tab.query }
        calls := [Call.setTimeout .clearUpdatingTab] }

/-- The text->tab effect body (lines 162-182). -/
def textToTabEffect (s : AppState) : Outcome :=
  if s.isUpdatingTab then { state := s, calls := [] }
  else
    let s1 := { s with isUpdatingQuery := true }
    let patch : TabPatch := { query := some s.queryText, queryId := some s.currentQueryId }
    match findTab s.queryTabs s.activeTabId with
    | some tab =>
      if tab.query != s.queryText || tab.queryId != s.currentQueryId then
        { state := { s1 with queryTabs := updateQueryTab s.queryTabs s.activeTabId patch }
          calls := [Call.updateQueryTab s.activeTabId patch,
                    Call.setTimeout .clearUpdatingQuery] }
      else { state := s1, calls := [Call.setTimeout .clearUpdatingQuery] }
    | none => { state := s1, calls := [Call.setTimeout .clearUpdatingQuery] }

/-- The auto-naming effect body (lines 185-212). -/
def autoNamingEffect (s : AppState) : Outcome :=
  if s.isUpdatingTab || s.isUpdatingQuery then { state := s, calls := [] }
  else
    match findTab s.queryTabs s.activeTabId with
    | none => { state := s, calls := [] }
    | some tab =>
      if tab.renamed then { state := s, calls := [] }
      else
        let tabName := deriveTabName tab.query
        if tabName != tab.name then
          let patch : TabPatch := { name := some tabName }
          { state := { s with queryTabs := updateQueryTab s.queryTabs s.activeTabId patch }
            calls := [Call.updateQueryTab s.activeTabId patch] }
        else { state := s, calls := [] }

/-- The query-selector reset effect body (lines 332-338). -/
def resetQueryTextEffect (catalog : List CatalogQuery) (s : AppState) : Outcome :=
  match findQuery catalog s.currentQueryId with
  | some query => { state := { s with queryText := query.query }, calls := [] }
  | none => { state := s, calls := [] }

/-! ## The handlers -/

/-- The message of the validation error (lines 325-327). -/
def validationMessage : String :=
  "You can only execute queries from the predefined list. Please select a query from the dropdown."

/-- The handler `handleExecuteQuery` (lines 286-329). `innerWidth` is
`window.innerWidth`. When no tab has the active id, `currentTab.name` throws
while the arguments of `executeQueryAndCreateTab` are evaluated. -/
def handleExecuteQuery (catalog : List CatalogQuery) (innerWidth : Nat) (s : AppState)
    (query : String) : Outcome :=
  let s1 := { s with customError := none, queryModified := false }
  match findMatchingQuery catalog query with
  | some matchingQuery =>
    match findTab s.queryTabs s.activeTabId with
    | none => { state := s1, calls := [], threw := true }
    | some currentTab =>
      let s2 :=
        if matchingQuery.id != s.currentQueryId then
          { s1 with currentQueryId := matchingQuery.id }
        else s1
      let s3 :=
        if innerWidth ≤ 768 && s.sidebarOpen then { s2 with sidebarOpen := false } else s2
      { state := s3
        calls := [Call.executeQueryAndCreateTab query matchingQuery.id currentTab.name,
                  Call.executeQuery query matchingQuery.id currentTab.name] }
  | none => { state := { s1 with customError := some validationMessage }, calls := [] }

/-- The handler `handleQueryChange` (lines 234-257). -/
def handleQueryChange (catalog : List CatalogQuery) (s : AppState) (queryId : String) :
    Outcome :=
  match findQuery catalog queryId with
  | some query =>
    let currentTab := findTab s.queryTabs s.activeTabId
    let isRenamed := match currentTab with
      | some t => t.renamed
      | none => false
    let name := match currentTab with
      | some t => if isRenamed then t.name else query.name
      | none => query.name
    let patch : TabPatch :=
      { name := some name, queryId := some queryId, query := some query.query,
        renamed := some isRenamed }
    { state :=
        { s with
          queryTabs := updateQueryTab s.queryTabs s.activeTabId patch
          currentQueryId := queryId
          queryText := query.query
          customError := none
          queryModified := true }
      calls := [Call.updateQueryTab s.activeTabId patch] }
  | none => { state := s, calls := [] }

/-- Modelled from the spec: `clearAllOutputTabs` of the `useTabs` hook, which is
not in `src/App.jsx`. Spec 4.1: it "first asks for confirmation through an
injected confirmation callback (its refusal aborts the clear and is reported to
the caller as not cleared)"; on acceptance all output tabs are removed.
`confirmed` is the answer of the confirmation collaborator; the result is the
state and the value returned to the caller. -/
def clearAllOutputTabs (confirmed : Bool) (s : AppState) : AppState × Bool :=
  if confirmed then ({ s with outputTabs := [] }, true) else (s, false)

/-- Modelled from the spec: `clearResults` of the `useSQLQuery` hook, which is
not in `src/App.jsx`: the result set becomes empty. -/
def clearResults (s : AppState) : AppState := { s with results := none }

/-- The handler `handleClearResults` (lines 260-273). -/
def handleClearResults (confirmed : Bool) (s : AppState) : Outcome :=
  let s1 := if s.isFullScreen then { s with isFullScreen := false } else s
  let cleared := clearAllOutputTabs confirmed s1
  if cleared.2 then
    { state := clearResults cleared.1, calls := [Call.clearAllOutputTabs, Call.clearResults] }
  else { state := cleared.1, calls := [Call.clearAllOutputTabs] }

/-- The effect body of lines 276-278: `checkExitFullScreen(results)`. What
`checkExitFullScreen` (of the `useLayout` hook) then does is not in
`src/App.jsx`; the call is recorded. -/
def checkExitFullScreenEffect (s : AppState) : Outcome :=
  { state := s, calls := [Call.checkExitFullScreen s.results] }

/-- The effect of lines 276-278 under its dependency array
`[results, checkExitFullScreen]`: it runs after a render in which `results`
differs from the previous render (`prevResults`), or in which the other
dependency changed. -/
def fullScreenCheckReaction (prevResults : Option (List String)) (otherDepChanged : Bool)
    (s : AppState) : Outcome :=
  if prevResults != s.results || otherDepChanged then checkExitFullScreenEffect s
  else { state := s, calls := [] }

/-- The message of the history warning (lines 374-376). -/
def historyWarning : String :=
  "Cannot load this query from history as it's no longer in the predefined list."

/-- The handler `handleHistorySelect` (lines 341-378). `newTab` is the value
`createTabFromHistory(historyItem)` returned (`null` is `none`); the hook that
builds the tab is not in `src/App.jsx`, so the call is recorded and its return
value is a parameter. -/
def handleHistorySelect (newTab : Option QueryTab) (s : AppState) (historyItem : HistoryItem)
    (shouldExecute : Bool) : Outcome :=
  let s1 := { s with customError := none }
  match newTab with
  | some tab =>
    { state := { s1 with mobileHistoryOpen := false }
      calls := Call.createTabFromHistory historyItem ::
        (if shouldExecute then
          [Call.executeQueryAndCreateTab historyItem.query historyItem.queryId tab.name,
           Call.executeQuery historyItem.query historyItem.queryId tab.name]
         else []) }
  | none =>
    { state := { s1 with customError := some historyWarning }
      calls := [Call.createTabFromHistory historyItem] }

/-- The text `newQuery` of `handleTableClick` (line 382): `customSQL` when it is
truthy (a non-empty string), else the template with the table name. `undefined`
is `none`. -/
def tableClickQuery (tableName : String) (customSQL : Option String) : String :=
  match customSQL with
  | some custom => if custom != "" then custom else "SELECT * FROM " ++ tableName ++ " LIMIT 100;"
  | none => "SELECT * FROM " ++ tableName ++ " LIMIT 100;"

/-- The object `newTab` of `handleTableClick` (lines 385-398); `newId` is the
value of `nanoid()`. -/
def tableClickTab (catalog : List CatalogQuery) (newId tableName : String)
    (customSQL : Option String) : QueryTab :=
  let newQuery := tableClickQuery tableName customSQL
  let queryId := match findMatchingQuery catalog newQuery with
    | some matchingQuery => matchingQuery.id
    | none => ""
  { id := newId, name := "SELECT " ++ tableName, queryId := queryId, query := newQuery,
    renamed := false }

/-- The handler `handleTableClick` (lines 381-407). -/
def handleTableClick (catalog : List CatalogQuery) (innerWidth : Nat) (newId : String)
    (s : AppState) (tableName : String) (customSQL : Option String) : Outcome :=
  let newTab := tableClickTab catalog newId tableName customSQL
  let s1 := { s with queryTabs := s.queryTabs ++ [newTab], activeTabId := newTab.id }
  { state := if innerWidth ≤ 768 then { s1 with sidebarOpen := false } else s1
    calls := [] }

/-- The value `displayError` (line 221), `customError || sqlError`: the custom
error when it is truthy (a non-empty string), else the execution error. -/
def displayError (s : AppState) : Option String :=
  match s.customError with
  | some message => if message != "" then some message else s.sqlError
  | none => s.sqlError

/-- The effect body of lines 224-228: a truthy `customError` (a non-empty
string) is set to null. -/
def clearErrorEffect (s : AppState) : Outcome :=
  match s.customError with
  | some message =>
    if message != "" then { state := { s with customError := none }, calls := [] }
    else { state := s, calls := [] }
  | none => { state := s, calls := [] }

/-- The effect of lines 224-228 under its dependency array
`[queryText, customError]`: it runs after a render in which one of the two
differs from its value at the previous render. -/
def clearErrorReaction (prevQueryText : String) (prevCustomError : Option String)
    (s : AppState) : Outcome :=
  if prevQueryText != s.queryText || prevCustomError != s.customError then clearErrorEffect s
  else { state := s, calls := [] }

/-- The condition of line 961 under which the results toolbar is rendered,
`activeTabResults && !loading && activeOutputTabId`. The three values come from
the hooks; `null` is `none`, and the empty string is falsy. -/
def resultsToolbarRendered (activeTabResults : Option (List String)) (loading : Bool)
    (activeOutputTabId : Option String) : Bool :=
  activeTabResults.isSome && !loading &&
    (match activeOutputTabId with
     | some id => id != ""
     | none => false)

/-- The title of the results toolbar (line 980), the template string over
`currentQuery.name` with `currentQuery` of line 215: `none` is the `TypeError`
of reading `name` on `undefined`, when no catalog entry has the id
`currentQueryId`. -/
def resultsTitle (catalog : List CatalogQuery) (s : AppState) : Option String :=
  match findQuery catalog s.currentQueryId with
  | some currentQuery => some ("Results: " ++ currentQuery.name)
  | none => none

/-- The prop `queryName` of line 1018, `currentQuery?.name`: `none` is the value
`undefined`, not a fault. -/
def downloadQueryName (catalog : List CatalogQuery) (s : AppState) : Option String :=
  (findQuery catalog s.currentQueryId).map CatalogQuery.name

/-- The values named in the dependency arrays of the effects. -/
inductive Dep where
  | queryText
  | currentQueryId
  | activeTabId
  | activeTab
  | queryTabs
  | updateQueryTab
  | isUpdatingTab
  | isUpdatingQuery
  | customError
  deriving DecidableEq, Repr

/-- The dependency array of the tab->text effect (line 159). -/
def tabToTextDeps : List Dep := [.activeTabId, .activeTab]

/-- The dependency array of the text->tab effect (line 182). -/
def textToTabDeps : List Dep :=
  [.queryText, .currentQueryId, .activeTabId, .queryTabs, .updateQueryTab]

/-- The dependency array of the auto-naming effect (line 212). -/
def autoNamingDeps : List Dep :=
  [.activeTabId, .queryTabs, .updateQueryTab, .isUpdatingTab, .isUpdatingQuery]

/-- The dependency array of the clear-error effect (line 228). -/
def clearErrorDeps : List Dep := [.queryText, .customError]

/-- A dependency that is a ref object: the same object at every render, so it
never re-triggers an effect. -/
def Dep.isRef : Dep → Bool
  | .isUpdatingTab => true
  | .isUpdatingQuery => true
  | _ => false

/-! ## Runs of the synchronisation code -/

/-- One run of a piece of the synchronisation code: an effect body (the tab->text
one with the `activeTab` the hook supplied for that render) or a deferred
guard-clearing callback. -/
inductive SyncEvent where
  | tabToText (activeTab : Option QueryTab)
  | textToTab
  | autoNaming
  | deferred (cb : Deferred)
  deriving DecidableEq, Repr

/-- The state after one run. -/
def runEvent (s : AppState) : SyncEvent → AppState
  | .tabToText activeTab => (tabToTextEffect activeTab s).state
  | .textToTab => (textToTabEffect s).state
  | .autoNaming => (autoNamingEffect s).state
  | .deferred cb => runDeferred s cb

/-- The state after a sequence of runs, in the order given. -/
def runEvents (s : AppState) (es : List SyncEvent) : AppState := es.foldl runEvent s

/-- At most one guard is set. -/
def GuardsExclusive (s : AppState) : Prop :=
  ¬ (s.isUpdatingTab = true ∧ s.isUpdatingQuery = true)

/-! ## One user change and the reactions to it -/

/-- A change the user originates: an edit of the text (`setQueryText`), a choice
in the query selector (`handleQueryChange`), or a run (`handleExecuteQuery`,
which may switch `currentQueryId`). -/
inductive UserChange where
  | editText (text : String)
  | selectQuery (queryId : String)
  | execute (query : String)
  deriving DecidableEq, Repr

/-- The state after a user change. -/
def applyUserChange (catalog : List CatalogQuery) (innerWidth : Nat) (s : AppState) :
    UserChange → AppState
  | .editText text => { s with queryText := text }
  | .selectQuery queryId => (handleQueryChange catalog s queryId).state
  | .execute query => (handleExecuteQuery catalog innerWidth s query).state

/-- One pass of the synchronisation reactions after a render: the text->tab
effect, then the query-selector reset effect when `currentQueryId` differs from
its value `prevQueryId` at the previous render (its dependency array is
`[currentQueryId]`). The text->tab effect does not write `currentQueryId`, so the
reset effect reads the value of the render although it is run on the state the
text->tab effect left. -/
def syncReactions (catalog : List CatalogQuery) (prevQueryId : String) (s : AppState) :
    Outcome :=
  let o1 := textToTabEffect s
  if prevQueryId != s.currentQueryId then
    let o2 := resetQueryTextEffect catalog o1.state
    { state := o2.state, calls := o1.calls ++ o2.calls }
  else o1

/-- The first pass of the reactions after a user change made in state `s`. -/
def firstPass (catalog : List CatalogQuery) (innerWidth : Nat) (s : AppState)
    (u : UserChange) : Outcome :=
  syncReactions catalog s.currentQueryId (applyUserChange catalog innerWidth s u)

/-- The reactions run again on the state the first pass left. -/
def secondPass (catalog : List CatalogQuery) (innerWidth : Nat) (s : AppState)
    (u : UserChange) : Outcome :=
  syncReactions catalog (applyUserChange catalog innerWidth s u).currentQueryId
    (firstPass catalog innerWidth s u).state

/-- The reactions run a third time, on the state the second pass left. -/
def thirdPass (catalog : List CatalogQuery) (innerWidth : Nat) (s : AppState)
    (u : UserChange) : Outcome :=
  syncReactions catalog (firstPass catalog innerWidth s u).state.currentQueryId
    (secondPass catalog innerWidth s u).state

/-- The active tab, when there is one, stores the editor's text and the current
catalog reference. -/
def InSync (s : AppState) : Prop :=
  ∀ tab, findTab s.queryTabs s.activeTabId = some tab →
    tab.query = s.queryText ∧ tab.queryId = s.currentQueryId

/-- Activating a tab: `setActiveTabId(tab.id)` (line 575). -/
def activateTab (s : AppState) (tab : QueryTab) : AppState :=
  { s with activeTabId := tab.id }

/-- The state once `tab` was activated and the tab->text effect has run with it
as `activeTab`. -/
def afterTabToText (s : AppState) (tab : QueryTab) : AppState :=
  (tabToTextEffect (some tab) (activateTab s tab)).state

/-- The state once, after that, the query-selector reset effect has run too. -/
def afterActivation (catalog : List CatalogQuery) (s : AppState) (tab : QueryTab) :
    AppState :=
  (resetQueryTextEffect catalog (afterTabToText s tab)).state

/-! ## The form of a derived name -/

/-- A spelling of one of the seven verbs, in any mix of upper and lower case. -/
def IsVerbSpelling (w : List Char) : Prop :=
  ∃ v ∈ sqlVerbs, w.map Char.toUpper = v.data

/-- The trimmed text starts with a verb spelling followed by white space. -/
def StartsWithVerbAndSpace (text : String) : Prop :=
  ∃ (verb : List Char) (c : Char) (rest : List Char),
    jsTrimChars text.data = verb ++ c :: rest ∧ IsVerbSpelling verb ∧ isJsSpace c = true

/-- The string `name` is a verb spelling, one blank and a target, where the verb
is the leading word of the trimmed text and is followed by white space there,
and the target is a token of the text: a non-empty run of characters that are
neither white space nor `;`, with white space right before it and, right after
it, white space, a `;` or the end of the trimmed text. -/
def IsVerbTargetName (text name : String) : Prop :=
  ∃ (verb gap : List Char) (c : Char) (target post lead trail : List Char),
    text.data = lead ++ jsTrimChars text.data ++ trail ∧
    jsTrimChars text.data = verb ++ (gap ++ c :: (target ++ post)) ∧
    IsVerbSpelling verb ∧
    (∃ c0, (gap ++ [c]).head? = some c0 ∧ isJsSpace c0 = true) ∧
    isJsSpace c = true ∧
    target ≠ [] ∧
    (∀ d ∈ target, isJsSpace d = false ∧ d ≠ ';') ∧
    (∀ d, post.head? = some d → isJsSpace d = true ∨ d = ';') ∧
    name = String.mk (verb ++ ' ' :: target)

/-! ## Frames and sample data -/

/-- Position by position, every tab keeps its id, name and renamed flag, and a
tab whose id is not `id` is unchanged. -/
def OnlyQueryFieldsChanged (id : String) (before after : List QueryTab) : Prop :=
  List.Forall₂
    (fun t t' => t'.id = t.id ∧ t'.name = t.name ∧ t'.renamed = t.renamed ∧
      (t.id ≠ id → t' = t))
    before after

/-- A catalog of two entries. -/
def sampleCatalog : List CatalogQuery :=
  [ { id := "q1", name := "All customers", query := "SELECT * FROM customers;" },
    { id := "q2", name := "All orders", query := "SELECT * FROM orders;" } ]

/-- A tab holding the first catalog entry. -/
def sampleTab : QueryTab :=
  { id := "t1", name := "SELECT customers", renamed := false, queryId := "q1",
    query := "SELECT * FROM customers;" }

/-- A tab the user renamed. -/
def renamedTab : QueryTab :=
  { id := "t2", name := "My report", renamed := true, queryId := "q2",
    query := "SELECT * FROM orders;" }

/-- A state at rest: the editor shows the first tab, both guards are clear. -/
def sampleState : AppState :=
  { currentQueryId := "q1"
    queryText := "SELECT * FROM customers;"
    customError := none
    queryModified := false
    queryTabs := [sampleTab, renamedTab]
    activeTabId := "t1"
    outputTabs := []
    isUpdatingTab := false
    isUpdatingQuery := false
    sidebarOpen := true
    isFullScreen := false
    results := none
    sqlError := none
    mobileHistoryOpen := false }

/-- A tab opened from the history of a run whose text ended in a line break: it
carries the catalog reference of the second entry and the text as it was run. -/
def historyTab : QueryTab :=
  { id := "t3", name := "SELECT orders", renamed := false, queryId := "q2",
    query := "SELECT * FROM orders;\n" }

/-- The sample state with the history tab as a third, inactive tab. -/
def historyState : AppState :=
  { sampleState with queryTabs := [sampleTab, renamedTab, historyTab] }

/-! ## The table browser and the catalog selection, as the spec words them -/

/-- The query text of a table-browser tab in the words of the spec (section 6):
the supplied custom text, or `SELECT * FROM <tableName> LIMIT 100`. -/
def specTableQuery (tableName : String) (customSQL : Option String) : String :=
  match customSQL with
  | some custom => custom
  | none => "SELECT * FROM " ++ tableName ++ " LIMIT 100"

/-- The nullable catalog reference in the words of the spec (section 3): the id
of the first catalog entry whose trimmed text equals the trimmed text, and null
(`none`) when the text matches no entry. -/
def specCatalogRef (catalog : List CatalogQuery) (text : String) : Option String :=
  (findMatchingQuery catalog text).map CatalogQuery.id

/-- Position by position, a tab whose id is not `id` is unchanged. -/
def OtherTabsUnchanged (id : String) (before after : List QueryTab) : Prop :=
  List.Forall₂ (fun t t' => t.id ≠ id → t' = t) before after

/-- The sample state in full screen, with a result set and an output tab. -/
def fullScreenState : AppState :=
  { sampleState with
    isFullScreen := true
    results := some ["1,Ada"]
    outputTabs := [{ id := "o1", name := "SELECT customers", queryId := "q1" }] }

/-- A history entry whose catalog reference is no longer in the catalog. -/
def staleHistoryItem : HistoryItem := { query := "SELECT * FROM invoices;", queryId := "q9" }

/-- A state in which the results toolbar is shown: the first sample query was
run, its results are in, and one output tab is open. -/
def resultsState : AppState :=
  { sampleState with
    results := some ["1,Ada"]
    outputTabs := [{ id := "o1", name := "SELECT customers", queryId := "q1" }] }

/-- The state reached from `resultsState` when the table `orders` is opened from
the table browser and the tab->text effect has run for the new active tab. -/
def tableOpenedState : AppState :=
  (tabToTextEffect
    (findTab (handleTableClick sampleCatalog 1024 "t9" resultsState "orders" none).state.queryTabs
      (handleTableClick sampleCatalog 1024 "t9" resultsState "orders" none).state.activeTabId)
    (handleTableClick sampleCatalog 1024 "t9" resultsState "orders" none).state).state

/-- The first sample tab before it got a derived name. -/
def unnamedTab : QueryTab := { sampleTab with name := "New Query" }

/-- The sample state with the unnamed tab as its only tab. -/
def unnamedState : AppState := { sampleState with queryTabs := [unnamedTab] }

/-! ## The line of the FROM lookup -/

/-- A `FROM` (in any case) followed by white space and the first character of a
target occurs in `body` with no line terminator before it: the `FROM` clause
stands on the line on which `body` starts. -/
def FromOnLine (body : List Char) : Prop :=
  ∃ (pre word sp : List Char) (c : Char) (rest : List Char),
    body = pre ++ word ++ sp ++ c :: rest ∧
    (∀ d ∈ pre, isLineTerminator d = false) ∧
    word.map Char.toUpper = "FROM".data ∧
    sp ≠ [] ∧ (∀ d ∈ sp, isJsSpace d = true) ∧
    isTargetChar c = true

/-- The line of the verb: the trimmed text up to its first line terminator. -/
def verbLine (text : String) : List Char :=
  (jsTrimChars text.data).takeWhile fun c => !isLineTerminator c

/-- The first token of a character list: leading white space is skipped and the
longest run of characters that are neither white space nor `;` is taken. -/
def firstToken (cs : List Char) : List Char :=
  (cs.dropWhile isJsSpace).takeWhile isTargetChar

/-! ## Lemmas -/

theorem runEvent_guardsExclusive (s : AppState) (e : SyncEvent) (h : GuardsExclusive s) :
    GuardsExclusive (runEvent s e) := by
  unfold GuardsExclusive at *
  cases e with
  | tabToText activeTab =>
    cases hq : s.isUpdatingQuery <;> cases activeTab <;>
      simp_all [runEvent, tabToTextEffect]
  | textToTab =>
    cases ht : s.isUpdatingTab
    · simp only [runEvent, textToTabEffect, ht]
      cases findTab s.queryTabs s.activeTabId with
      | none => simp [ht]
      | some tab => simp only [Bool.false_eq_true, if_false]; split <;> simp [ht]
    · simp_all [runEvent, textToTabEffect]
  | autoNaming =>
    cases ht : s.isUpdatingTab <;> cases hq : s.isUpdatingQuery <;>
      simp_all [runEvent, autoNamingEffect]
    cases findTab s.queryTabs s.activeTabId with
    | none => simp [ht, hq]
    | some tab =>
      simp only []
      split
      · simp [ht, hq]
      · split <;> simp [ht, hq]
  | deferred cb =>
    cases cb <;> simp_all [runEvent, runDeferred]

theorem runEvents_guardsExclusive (es : List SyncEvent) :
    ∀ s : AppState, GuardsExclusive s → GuardsExclusive (runEvents s es) := by
  induction es with
  | nil => intro s h; simpa [runEvents] using h
  | cons e es ih =>
    intro s h
    have := ih (runEvent s e) (runEvent_guardsExclusive s e h)
    simpa [runEvents] using this

/-! ### The pieces of the regular expression -/

theorem ciLit_some (ps : List Char) :
    ∀ (cs m rest : List Char), ciLit ps cs = some (m, rest) →
      cs = m ++ rest ∧ List.Forall₂ (fun p c => ciCharEq p c = true) ps m := by
  induction ps with
  | nil =>
    intro cs m rest h
    simp only [ciLit, Option.some.injEq, Prod.mk.injEq] at h
    obtain ⟨rfl, rfl⟩ := h
    exact ⟨rfl, List.Forall₂.nil⟩
  | cons p ps ih =>
    intro cs m rest h
    cases cs with
    | nil => simp [ciLit] at h
    | cons c cs =>
      simp only [ciLit] at h
      split at h
      · rename_i hc
        cases hrec : ciLit ps cs with
        | none => simp [hrec] at h
        | some pr =>
          obtain ⟨m', rest'⟩ := pr
          simp only [hrec, Option.some.injEq, Prod.mk.injEq] at h
          obtain ⟨rfl, rfl⟩ := h
          obtain ⟨h1, h2⟩ := ih cs m' rest' hrec
          exact ⟨by simp [h1], List.Forall₂.cons hc h2⟩
      · simp at h

theorem toUpper_of_ciCharEq (p c : Char) (hp : 65 ≤ p.toNat ∧ p.toNat ≤ 90)
    (h : ciCharEq p c = true) : c.toUpper = p := by
  simp only [ciCharEq, Bool.or_eq_true, beq_iff_eq] at h
  unfold Char.toUpper
  rcases h with h | h
  · have hc : ¬ (c.toNat ≥ 97 ∧ c.toNat ≤ 122) := by omega
    simp only [hc, if_false]
    rw [← Char.ofNat_toNat c, h, Char.ofNat_toNat]
  · have hc : c.toNat ≥ 97 ∧ c.toNat ≤ 122 := by omega
    simp only [hc, and_self, if_true]
    have : c.toNat - 32 = p.toNat := by omega
    rw [this, Char.ofNat_toNat]

theorem map_toUpper_of_ciLit (ps m : List Char)
    (hps : ∀ p ∈ ps, 65 ≤ p.toNat ∧ p.toNat ≤ 90)
    (h : List.Forall₂ (fun p c => ciCharEq p c = true) ps m) :
    m.map Char.toUpper = ps := by
  induction h with
  | nil => rfl
  | @cons p c ps m hc _ ih =>
    simp only [List.map_cons, List.cons.injEq]
    exact ⟨toUpper_of_ciCharEq p c (hps p (List.mem_cons_self _ _)) hc,
      ih (fun q hq => hps q (List.mem_cons_of_mem _ hq))⟩

theorem sqlVerbs_upper : ∀ v ∈ sqlVerbs, ∀ p ∈ v.data, 65 ≤ p.toNat ∧ p.toNat ≤ 90 := by
  decide

theorem spacesStarThen_some {α : Type} (k : List Char → Option α) (r : α) :
    ∀ cs : List Char, spacesStarThen k cs = some r →
      ∃ sp rest, cs = sp ++ rest ∧ (∀ c ∈ sp, isJsSpace c = true) ∧ k rest = some r := by
  intro cs
  induction cs with
  | nil =>
    intro h
    exact ⟨[], [], rfl, by simp, by simpa [spacesStarThen] using h⟩
  | cons c cs ih =>
    intro h
    simp only [spacesStarThen] at h
    by_cases hc : isJsSpace c = true
    · simp only [hc, if_true] at h
      cases hrec : spacesStarThen k cs with
      | some r' =>
        simp only [hrec, Option.some.injEq] at h
        subst h
        obtain ⟨sp, rest, h1, h2, h3⟩ := ih hrec
        refine ⟨c :: sp, rest, by simp [h1], ?_, h3⟩
        intro d hd
        rcases List.mem_cons.mp hd with rfl | hd
        · exact hc
        · exact h2 d hd
      | none =>
        simp only [hrec] at h
        exact ⟨[], c :: cs, rfl, by simp, h⟩
    · simp only [hc, Bool.false_eq_true, if_false] at h
      exact ⟨[], c :: cs, rfl, by simp, h⟩

theorem spacesPlusThen_some {α : Type} (k : List Char → Option α) (r : α)
    (cs : List Char) (h : spacesPlusThen k cs = some r) :
    ∃ sp c rest, cs = sp ++ c :: rest ∧ (∀ d ∈ sp, isJsSpace d = true) ∧
      isJsSpace c = true ∧ k rest = some r := by
  cases cs with
  | nil => simp [spacesPlusThen] at h
  | cons c cs =>
    simp only [spacesPlusThen] at h
    by_cases hc : isJsSpace c = true
    · simp only [hc, if_true] at h
      obtain ⟨sp, rest, h1, h2, h3⟩ := spacesStarThen_some k r cs h
      have hall : ∀ d ∈ c :: sp, isJsSpace d = true := by
        intro d hd
        rcases List.mem_cons.mp hd with rfl | hd
        · exact hc
        · exact h2 d hd
      have hne : c :: sp ≠ [] := by simp
      refine ⟨(c :: sp).dropLast, (c :: sp).getLast hne, rest, ?_, ?_, ?_, h3⟩
      · have := List.dropLast_append_getLast hne
        calc c :: cs = (c :: sp) ++ rest := by simp [h1]
          _ = ((c :: sp).dropLast ++ [(c :: sp).getLast hne]) ++ rest := by rw [this]
          _ = _ := by simp
      · intro d hd
        exact hall d (List.mem_of_mem_dropLast hd)
      · exact hall _ (List.getLast_mem hne)
    · simp [hc] at h

theorem lazyDotsThen_some {α : Type} (k : List Char → Option α) (r : α) :
    ∀ cs : List Char, lazyDotsThen k cs = some r →
      ∃ pre rest, cs = pre ++ rest ∧ k rest = some r := by
  intro cs
  induction cs with
  | nil =>
    intro h
    exact ⟨[], [], rfl, by simpa [lazyDotsThen] using h⟩
  | cons c cs ih =>
    intro h
    simp only [lazyDotsThen] at h
    cases hk : k (c :: cs) with
    | some r' =>
      simp only [hk, Option.some.injEq] at h
      subst h
      exact ⟨[], c :: cs, rfl, hk⟩
    | none =>
      simp only [hk] at h
      split at h
      · simp at h
      · obtain ⟨pre, rest, h1, h2⟩ := ih h
        exact ⟨c :: pre, rest, by simp [h1], h2⟩

theorem targetToken_some (cs t : List Char) (h : targetToken cs = some t) :
    t ≠ [] ∧ (∀ c ∈ t, isTargetChar c = true) ∧
      ∃ post, cs = t ++ post ∧ ∀ d, post.head? = some d → isTargetChar d = false := by
  unfold targetToken at h
  have ht : cs.takeWhile isTargetChar = t := by
    split at h
    · simp at h
    · simpa using h
  have hne : t ≠ [] := by
    intro h0
    rw [← ht] at h0
    simp [h0] at h
  refine ⟨hne, ?_, cs.dropWhile isTargetChar, ?_, ?_⟩
  · intro c hc
    rw [← ht] at hc
    exact List.mem_takeWhile_imp hc
  · rw [← ht, List.takeWhile_append_dropWhile]
  · intro d hd
    have := List.head?_dropWhile_not isTargetChar cs
    rw [hd] at this
    exact this

theorem verbAltThen_some {α : Type} (k : List Char → List Char → Option α) (r : α)
    (cs : List Char) :
    ∀ vs : List String, verbAltThen k vs cs = some r →
      ∃ v ∈ vs, ∃ m rest, ciLit v.data cs = some (m, rest) ∧ k m rest = some r := by
  intro vs
  induction vs with
  | nil => intro h; simp [verbAltThen] at h
  | cons v vs ih =>
    intro h
    simp only [verbAltThen] at h
    cases hl : ciLit v.data cs with
    | none =>
      simp only [hl] at h
      obtain ⟨w, hw, m, rest, h1, h2⟩ := ih h
      exact ⟨w, List.mem_cons_of_mem _ hw, m, rest, h1, h2⟩
    | some pr =>
      obtain ⟨m, rest⟩ := pr
      simp only [hl] at h
      cases hk : k m rest with
      | some r' =>
        simp only [hk, Option.some.injEq] at h
        subst h
        exact ⟨v, List.mem_cons_self _ _, m, rest, hl, hk⟩
      | none =>
        simp only [hk] at h
        obtain ⟨w, hw, m', rest', h1, h2⟩ := ih h
        exact ⟨w, List.mem_cons_of_mem _ hw, m', rest', h1, h2⟩

theorem isTargetChar_true (d : Char) (h : isTargetChar d = true) :
    isJsSpace d = false ∧ d ≠ ';' := by
  simpa [isTargetChar] using h

theorem isTargetChar_false (d : Char) (h : isTargetChar d = false) :
    isJsSpace d = true ∨ d = ';' := by
  by_cases hs : isJsSpace d = true
  · exact Or.inl hs
  · right
    simpa [isTargetChar, hs] using h

/-- After the verb: `\s+(?:.*?FROM\s+)?([^\s;]+)` matched on `rest` with target
`t` splits `rest` into a gap that starts with white space, one white-space
character, the target and what follows it. -/
theorem afterVerb_some (rest t : List Char)
    (h : spacesPlusThen optFromTarget rest = some t) :
    ∃ (gap : List Char) (c : Char) (post : List Char),
      rest = gap ++ c :: (t ++ post) ∧
      (∃ c0, (gap ++ [c]).head? = some c0 ∧ isJsSpace c0 = true) ∧
      isJsSpace c = true ∧ t ≠ [] ∧ (∀ d ∈ t, isTargetChar d = true) ∧
      (∀ d, post.head? = some d → isTargetChar d = false) := by
  obtain ⟨sp, c, r1, h1, hsp, hc, hk⟩ := spacesPlusThen_some optFromTarget t rest h
  have hhead : ∀ tl : List Char, ∃ c0, (sp ++ c :: tl).head? = some c0 ∧
      isJsSpace c0 = true := by
    intro tl
    cases sp with
    | nil => exact ⟨c, rfl, hc⟩
    | cons a sp => exact ⟨a, rfl, hsp a (List.mem_cons_self _ _)⟩
  unfold optFromTarget at hk
  cases hl : lazyDotsThen (fromThen (spacesPlusThen targetToken)) r1 with
  | some t' =>
    simp only [hl, Option.some.injEq] at hk
    subst hk
    obtain ⟨dots, r2, h2, hf⟩ := lazyDotsThen_some _ t' r1 hl
    unfold fromThen at hf
    cases hlit : ciLit "FROM".data r2 with
    | none => simp [hlit] at hf
    | some pr =>
      obtain ⟨m, r3⟩ := pr
      simp only [hlit] at hf
      obtain ⟨h3, -⟩ := ciLit_some _ _ _ _ hlit
      obtain ⟨sp2, c2, r4, h4, -, hc2, hk2⟩ := spacesPlusThen_some targetToken t' r3 hf
      obtain ⟨hne, hall, post, h5, hpost⟩ := targetToken_some r4 t' hk2
      refine ⟨sp ++ c :: (dots ++ m ++ sp2), c2, post, ?_, ?_, hc2, hne, hall, hpost⟩
      · rw [h1, h2, h3, h4, h5]; simp
      · simpa using hhead (dots ++ m ++ sp2 ++ [c2])
  | none =>
    simp only [hl] at hk
    obtain ⟨hne, hall, post, h5, hpost⟩ := targetToken_some r1 t hk
    refine ⟨sp, c, post, ?_, ?_, hc, hne, hall, hpost⟩
    · rw [h1, h5]
    · cases sp with
      | nil => exact ⟨c, rfl, hc⟩
      | cons a sp => exact ⟨a, rfl, hsp a (List.mem_cons_self _ _)⟩

/-- A match of the whole expression: leading white space, a verb spelling, and
the split of `afterVerb_some`. -/
theorem nameRegexMatch_some (cs action target : List Char)
    (h : nameRegexMatch cs = some (action, target)) :
    ∃ (sp0 gap : List Char) (c : Char) (post : List Char),
      cs = sp0 ++ (action ++ (gap ++ c :: (target ++ post))) ∧
      (∀ d ∈ sp0, isJsSpace d = true) ∧ IsVerbSpelling action ∧
      (∃ c0, (gap ++ [c]).head? = some c0 ∧ isJsSpace c0 = true) ∧
      isJsSpace c = true ∧ target ≠ [] ∧ (∀ d ∈ target, isTargetChar d = true) ∧
      (∀ d, post.head? = some d → isTargetChar d = false) := by
  unfold nameRegexMatch at h
  obtain ⟨sp0, r0, h0, hsp0, hk⟩ := spacesStarThen_some _ _ cs h
  obtain ⟨v, hv, m, rest, hlit, hk2⟩ := verbAltThen_some _ _ r0 sqlVerbs hk
  cases hrest : spacesPlusThen optFromTarget rest with
  | none => simp [hrest] at hk2
  | some t =>
    simp only [hrest, Option.some.injEq, Prod.mk.injEq] at hk2
    obtain ⟨rfl, rfl⟩ := hk2
    obtain ⟨hcs, hfa⟩ := ciLit_some _ _ _ _ hlit
    obtain ⟨gap, c, post, h1, hhead, hc, hne, hall, hpost⟩ := afterVerb_some rest t hrest
    refine ⟨sp0, gap, c, post, ?_, hsp0, ?_, hhead, hc, hne, hall, hpost⟩
    · rw [h0, hcs, h1]
    · exact ⟨v, hv, map_toUpper_of_ciLit _ _ (sqlVerbs_upper v hv) hfa⟩

/-! ### `trim` -/

theorem jsTrimChars_within (cs : List Char) :
    ∃ lead trail, cs = lead ++ jsTrimChars cs ++ trail := by
  have h1 : cs.dropWhile isJsSpace <:+ cs := List.dropWhile_suffix _
  have h2 : jsTrimChars cs <+: cs.dropWhile isJsSpace := by
    unfold jsTrimChars
    rw [← List.reverse_suffix, List.reverse_reverse]
    exact List.dropWhile_suffix _
  obtain ⟨lead, hl⟩ := h1
  obtain ⟨trail, ht⟩ := h2
  refine ⟨lead, trail, ?_⟩
  calc cs = lead ++ cs.dropWhile isJsSpace := hl.symm
    _ = lead ++ (jsTrimChars cs ++ trail) := by rw [ht]
    _ = lead ++ jsTrimChars cs ++ trail := by simp

theorem jsTrimChars_head (cs : List Char) (c : Char)
    (h : (jsTrimChars cs).head? = some c) : isJsSpace c = false := by
  have h2 : jsTrimChars cs <+: cs.dropWhile isJsSpace := by
    unfold jsTrimChars
    rw [← List.reverse_suffix, List.reverse_reverse]
    exact List.dropWhile_suffix _
  obtain ⟨trail, ht⟩ := h2
  have hd := List.head?_dropWhile_not isJsSpace cs
  rw [← ht] at hd
  cases hj : jsTrimChars cs with
  | nil => simp [hj] at h
  | cons a l =>
    simp only [hj, List.head?_cons, Option.some.injEq] at h
    subst h
    simpa [hj] using hd

theorem verbSpelling_ne_nil (w : List Char) (h : IsVerbSpelling w) : w ≠ [] := by
  obtain ⟨v, hv, hw⟩ := h
  intro h0
  subst h0
  have : ∀ v ∈ sqlVerbs, v.data ≠ [] := by decide
  exact this v hv (by simpa using hw.symm)

/-- The name derived from a text that the expression matches. -/
theorem deriveTabName_of_match (text : String) (action target : List Char)
    (h : nameRegexMatch (jsTrimChars text.data) = some (action, target)) :
    IsVerbTargetName text (deriveTabName text) := by
  obtain ⟨sp0, gap, c, post, hcs, hsp0, hverb, hhead, hc, hne, hall, hpost⟩ :=
    nameRegexMatch_some _ _ _ h
  obtain ⟨lead, trail, hlt⟩ := jsTrimChars_within text.data
  have hsp : sp0 = [] := by
    cases sp0 with
    | nil => rfl
    | cons a sp0 =>
      have := jsTrimChars_head text.data a (by rw [hcs]; rfl)
      rw [hsp0 a (List.mem_cons_self _ _)] at this
      cases this
  subst hsp
  refine ⟨action, gap, c, target, post, lead, trail, hlt, by simpa using hcs, hverb, hhead,
    hc, hne, fun d hd => isTargetChar_true d (hall d hd),
    fun d hd => isTargetChar_false d (hpost d hd), ?_⟩
  simp [deriveTabName, h]

/-! ### `updateQueryTab` -/

theorem findTab_updateQueryTab (id : String) (p : TabPatch) (tab : QueryTab) :
    ∀ tabs : List QueryTab, findTab tabs id = some tab →
      findTab (updateQueryTab tabs id p) id = some (p.mergeInto tab) := by
  intro tabs
  induction tabs with
  | nil => intro h; simp [findTab] at h
  | cons t tabs ih =>
    intro h
    unfold findTab at h ih ⊢
    unfold updateQueryTab at ih ⊢
    rw [List.map_cons, List.find?_cons]
    rw [List.find?_cons] at h
    by_cases ht : t.id = id
    · have hb : (t.id == id) = true := by simpa using ht
      rw [hb] at h
      simp only [Option.some.injEq] at h
      subst h
      simp [ht, TabPatch.mergeInto]
    · have hb : (t.id == id) = false := by simpa using ht
      rw [hb] at h
      simp only [ht, if_false, hb]
      exact ih h

theorem updateQueryTab_frame (id : String) (p : TabPatch)
    (hName : p.name = none) (hRenamed : p.renamed = none) :
    ∀ tabs : List QueryTab, OnlyQueryFieldsChanged id tabs (updateQueryTab tabs id p) := by
  intro tabs
  induction tabs with
  | nil => exact List.Forall₂.nil
  | cons t tabs ih =>
    refine List.Forall₂.cons ?_ ih
    by_cases ht : t.id = id
    · simp [ht, TabPatch.mergeInto, hName, hRenamed]
    · simp [ht]

theorem onlyQueryFieldsChanged_refl (id : String) (tabs : List QueryTab) :
    OnlyQueryFieldsChanged id tabs tabs := by
  induction tabs with
  | nil => exact List.Forall₂.nil
  | cons t tabs ih => exact List.Forall₂.cons (by simp) ih

/-- The text->tab effect either leaves the tabs alone or applies a patch that
names neither `name` nor `renamed`. -/
theorem textToTab_unfold (s : AppState) :
    (textToTabEffect s).state.queryTabs = s.queryTabs ∧
      (textToTabEffect s).state.activeTabId = s.activeTabId ∨
    ∃ p : TabPatch, p.name = none ∧ p.renamed = none ∧
      (textToTabEffect s).state.activeTabId = s.activeTabId ∧
      (textToTabEffect s).state.queryTabs = updateQueryTab s.queryTabs s.activeTabId p := by
  cases hA : s.isUpdatingTab
  · cases hf : findTab s.queryTabs s.activeTabId with
    | none => left; simp [textToTabEffect, hA, hf]
    | some tab =>
      by_cases hd : (tab.query != s.queryText || tab.queryId != s.currentQueryId) = true
      · right
        exact ⟨{ query := some s.queryText, queryId := some s.currentQueryId }, rfl, rfl,
          by simp [textToTabEffect, hA, hf, hd], by simp [textToTabEffect, hA, hf, hd]⟩
      · left; simp [textToTabEffect, hA, hf, hd]
  · left; simp [textToTabEffect, hA]

theorem findTab_updateQueryTab_none (id : String) (p : TabPatch) :
    ∀ tabs : List QueryTab, findTab tabs id = none →
      findTab (updateQueryTab tabs id p) id = none := by
  intro tabs
  induction tabs with
  | nil => intro _; rfl
  | cons t tabs ih =>
    intro h
    unfold findTab at h ih ⊢
    unfold updateQueryTab at ih ⊢
    rw [List.map_cons, List.find?_cons]
    rw [List.find?_cons] at h
    by_cases ht : t.id = id
    · have hb : (t.id == id) = true := by simpa using ht
      rw [hb] at h
      cases h
    · have hb : (t.id == id) = false := by simpa using ht
      rw [hb] at h
      simp only [ht, if_false, hb]
      exact ih h

/-! ### The reactions -/

/-- What the text->tab effect keeps, and when it updates. -/
theorem textToTab_facts (s : AppState) :
    (textToTabEffect s).state.queryText = s.queryText ∧
    (textToTabEffect s).state.currentQueryId = s.currentQueryId ∧
    (textToTabEffect s).state.activeTabId = s.activeTabId ∧
    (textToTabEffect s).state.isUpdatingTab = s.isUpdatingTab ∧
    (textToTabEffect s).tabUpdates ≤ 1 ∧
    (s.isUpdatingTab = false → InSync (textToTabEffect s).state) ∧
    (InSync s → (textToTabEffect s).tabUpdates = 0 ∧ InSync (textToTabEffect s).state) := by
  cases hA : s.isUpdatingTab
  · cases hf : findTab s.queryTabs s.activeTabId with
    | none =>
      have hsync : InSync (textToTabEffect s).state := by
        intro tab htab
        simp [textToTabEffect, hA, hf] at htab
      simp only [hsync, true_and, imp_self, implies_true, and_true]
      simp [textToTabEffect, hA, hf, Outcome.tabUpdates, Call.isUpdateQueryTab]
    | some tab =>
      by_cases hd : (tab.query != s.queryText || tab.queryId != s.currentQueryId) = true
      · have hfind := findTab_updateQueryTab s.activeTabId
          { query := some s.queryText, queryId := some s.currentQueryId } tab s.queryTabs hf
        have hsync : InSync (textToTabEffect s).state := by
          intro tab' htab
          simp only [textToTabEffect, hA, hf, hd, Bool.false_eq_true, if_false, if_true,
            hfind, Option.some.injEq] at htab
          subst htab
          simp [textToTabEffect, hA, hf, hd, TabPatch.mergeInto]
        refine ⟨?_, ?_, ?_, ?_, ?_, fun _ => hsync, ?_⟩
        · simp [textToTabEffect, hA, hf, hd]
        · simp [textToTabEffect, hA, hf, hd]
        · simp [textToTabEffect, hA, hf, hd]
        · simp [textToTabEffect, hA, hf, hd]
        · simp [textToTabEffect, hA, hf, hd, Outcome.tabUpdates, Call.isUpdateQueryTab]
        · intro hin
          have := hin tab hf
          simp [this.1, this.2] at hd
      · have hq : tab.query = s.queryText ∧ tab.queryId = s.currentQueryId := by
          simpa using hd
        have hsync : InSync (textToTabEffect s).state := by
          intro tab' htab
          simp only [textToTabEffect, hA, hf, hd, Bool.false_eq_true, if_false,
            Option.some.injEq] at htab
          subst htab
          simpa [textToTabEffect, hA, hf, hd] using hq
        simp only [hsync, true_and, imp_self, implies_true, and_true]
        simp [textToTabEffect, hA, hf, hd, Outcome.tabUpdates, Call.isUpdateQueryTab]
  · have hst : textToTabEffect s = { state := s, calls := [] } := by
      simp [textToTabEffect, hA]
    rw [hst]
    simp [Outcome.tabUpdates, hA]

/-- What a pass of the reactions keeps: it is the text->tab effect, followed by
a rewrite of `queryText` at most. -/
theorem syncReactions_facts (catalog : List CatalogQuery) (prev : String) (s : AppState) :
    (syncReactions catalog prev s).state.currentQueryId = s.currentQueryId ∧
    (syncReactions catalog prev s).state.activeTabId = s.activeTabId ∧
    (syncReactions catalog prev s).state.isUpdatingTab = s.isUpdatingTab ∧
    (syncReactions catalog prev s).state.queryTabs = (textToTabEffect s).state.queryTabs ∧
    (syncReactions catalog prev s).tabUpdates = (textToTabEffect s).tabUpdates ∧
    (prev = s.currentQueryId → syncReactions catalog prev s = textToTabEffect s) := by
  obtain ⟨-, h2, h3, h4, -, -, -⟩ := textToTab_facts s
  by_cases hp : prev = s.currentQueryId
  · simp [syncReactions, hp, h2, h3, h4]
  · have hb : (prev != s.currentQueryId) = true := by simpa using hp
    cases hq : findQuery catalog s.currentQueryId <;>
      simp [syncReactions, hb, resetQueryTextEffect, hq, h2, h3, h4, hp, Outcome.tabUpdates]

theorem applyUserChange_isUpdatingTab (catalog : List CatalogQuery) (innerWidth : Nat)
    (s : AppState) (u : UserChange) :
    (applyUserChange catalog innerWidth s u).isUpdatingTab = s.isUpdatingTab := by
  cases u with
  | editText text => rfl
  | selectQuery queryId =>
    simp only [applyUserChange, handleQueryChange]
    cases findQuery catalog queryId <;> rfl
  | execute query =>
    simp only [applyUserChange, handleExecuteQuery]
    cases findMatchingQuery catalog query with
    | none => rfl
    | some m =>
      cases findTab s.queryTabs s.activeTabId with
      | none => rfl
      | some tab =>
        simp only []
        split <;> split <;> rfl

/-- The second pass is a plain text->tab run on a state with Guard A clear. -/
theorem secondPass_eq (catalog : List CatalogQuery) (innerWidth : Nat) (s : AppState)
    (u : UserChange) :
    secondPass catalog innerWidth s u
      = textToTabEffect (firstPass catalog innerWidth s u).state := by
  unfold secondPass
  apply (syncReactions_facts _ _ _).2.2.2.2.2
  exact ((syncReactions_facts catalog s.currentQueryId
    (applyUserChange catalog innerWidth s u)).1).symm

theorem firstPass_isUpdatingTab (catalog : List CatalogQuery) (innerWidth : Nat)
    (s : AppState) (u : UserChange) :
    (firstPass catalog innerWidth s u).state.isUpdatingTab = s.isUpdatingTab := by
  unfold firstPass
  rw [(syncReactions_facts _ _ _).2.2.1, applyUserChange_isUpdatingTab]

theorem thirdPass_eq (catalog : List CatalogQuery) (innerWidth : Nat) (s : AppState)
    (u : UserChange) :
    thirdPass catalog innerWidth s u
      = textToTabEffect (secondPass catalog innerWidth s u).state := by
  unfold thirdPass
  apply (syncReactions_facts _ _ _).2.2.2.2.2
  rw [secondPass_eq]
  exact ((textToTab_facts _).2.1).symm

/-- After `handleQueryChange` with a catalog id, the active tab agrees with the
editor, and the reset effect rewrites `queryText` to the text it already has. -/
theorem selectQuery_inSync (catalog : List CatalogQuery) (s : AppState) (queryId : String)
    (q : CatalogQuery) (hq : findQuery catalog queryId = some q) :
    InSync (handleQueryChange catalog s queryId).state ∧
    (handleQueryChange catalog s queryId).state.currentQueryId = queryId ∧
    (handleQueryChange catalog s queryId).state.queryText = q.query := by
  refine ⟨?_, by simp [handleQueryChange, hq], by simp [handleQueryChange, hq]⟩
  intro tab htab
  simp only [handleQueryChange, hq] at htab ⊢
  cases hf : findTab s.queryTabs s.activeTabId with
  | none =>
    rw [findTab_updateQueryTab_none _ _ _ hf] at htab
    cases htab
  | some t =>
    rw [findTab_updateQueryTab _ _ _ _ hf] at htab
    simp only [Option.some.injEq] at htab
    subst htab
    simp [TabPatch.mergeInto]

theorem firstPass_inSync_of_same (catalog : List CatalogQuery) (innerWidth : Nat)
    (s : AppState) (u : UserChange) (hA : s.isUpdatingTab = false)
    (hsame : (applyUserChange catalog innerWidth s u).currentQueryId = s.currentQueryId) :
    InSync (firstPass catalog innerWidth s u).state := by
  unfold firstPass
  rw [(syncReactions_facts _ _ _).2.2.2.2.2 hsame.symm]
  apply (textToTab_facts _).2.2.2.2.2.1
  rw [applyUserChange_isUpdatingTab]
  exact hA

theorem firstPass_inSync_of_select (catalog : List CatalogQuery) (innerWidth : Nat)
    (s : AppState) (queryId : String) (hA : s.isUpdatingTab = false) :
    InSync (firstPass catalog innerWidth s (.selectQuery queryId)).state := by
  cases hq : findQuery catalog queryId with
  | none =>
    apply firstPass_inSync_of_same _ _ _ _ hA
    simp [applyUserChange, handleQueryChange, hq]
  | some q =>
    obtain ⟨hin, hid, htext⟩ := selectQuery_inSync catalog s queryId q hq
    obtain ⟨t1, t2, -, -, -, -, t7⟩ := textToTab_facts (handleQueryChange catalog s queryId).state
    have hin' := (t7 hin).2
    by_cases hp : s.currentQueryId = (handleQueryChange catalog s queryId).state.currentQueryId
    · exact firstPass_inSync_of_same _ _ _ _ hA (by simpa [applyUserChange] using hp.symm)
    · have hb : (s.currentQueryId != (handleQueryChange catalog s queryId).state.currentQueryId)
          = true := by simpa using hp
      have hfq : findQuery catalog
          (textToTabEffect (handleQueryChange catalog s queryId).state).state.currentQueryId
            = some q := by rw [t2, hid, hq]
      have hst : (firstPass catalog innerWidth s (.selectQuery queryId)).state
          = { (textToTabEffect (handleQueryChange catalog s queryId).state).state with
              queryText := q.query } := by
        simp only [firstPass, applyUserChange, syncReactions, hb, if_true,
          resetQueryTextEffect, hfq]
      have hsame : ({ (textToTabEffect (handleQueryChange catalog s queryId).state).state with
              queryText := q.query } : AppState)
          = (textToTabEffect (handleQueryChange catalog s queryId).state).state := by
        have : (textToTabEffect (handleQueryChange catalog s queryId).state).state.queryText
            = q.query := by rw [t1, htext]
        rw [← this]
      rw [hst, hsame]
      exact hin'

theorem garbage_not_verb_start : ¬ StartsWithVerbAndSpace "garbage" := by
  rintro ⟨verb, c, rest, h, ⟨v, hv, hw⟩, -⟩
  have htrim : jsTrimChars "garbage".data = ['g', 'a', 'r', 'b', 'a', 'g', 'e'] := by decide
  have hkey : ∀ v ∈ sqlVerbs, v.data.head? ≠ some 'G' := by decide
  rw [htrim] at h
  cases verb with
  | nil =>
    have : ∀ v ∈ sqlVerbs, v.data ≠ [] := by decide
    exact this v hv (by simpa using hw.symm)
  | cons x xs =>
    simp only [List.cons_append, List.cons.injEq] at h
    have hx : x = 'g' := h.1.symm
    subst hx
    apply hkey v hv
    rw [← hw]
    simp only [List.map_cons, List.head?_cons, Option.some.injEq]
    decide

/-! ### The catalog lookups -/

theorem findMatchingQuery_first (query : String) (m : CatalogQuery) (post : List CatalogQuery)
    (hm : jsTrim m.query = jsTrim query) :
    ∀ pre : List CatalogQuery, (∀ q ∈ pre, jsTrim q.query ≠ jsTrim query) →
      findMatchingQuery (pre ++ m :: post) query = some m := by
  intro pre
  induction pre with
  | nil =>
    intro _
    simp [findMatchingQuery, List.find?, hm]
  | cons a pre ih =>
    intro hpre
    have ha : (jsTrim a.query == jsTrim query) = false := by
      simpa using hpre a (List.mem_cons_self _ _)
    have := ih (fun q hq => hpre q (List.mem_cons_of_mem _ hq))
    unfold findMatchingQuery at this ⊢
    rw [List.cons_append, List.find?_cons, ha]
    exact this

theorem findMatchingQuery_none_iff (catalog : List CatalogQuery) (query : String) :
    findMatchingQuery catalog query = none ↔ ∀ q ∈ catalog, jsTrim q.query ≠ jsTrim query := by
  unfold findMatchingQuery
  rw [List.find?_eq_none]
  constructor
  · intro h q hq; simpa using h q hq
  · intro h q hq; simpa using h q hq

theorem findMatchingQuery_some (catalog : List CatalogQuery) (query : String)
    (m : CatalogQuery) (h : findMatchingQuery catalog query = some m) :
    m ∈ catalog ∧ jsTrim m.query = jsTrim query := by
  unfold findMatchingQuery at h
  exact ⟨List.mem_of_find?_eq_some h, by simpa using List.find?_some h⟩

theorem findQuery_some (catalog : List CatalogQuery) (id : String) (q : CatalogQuery)
    (h : findQuery catalog id = some q) : q ∈ catalog ∧ q.id = id := by
  unfold findQuery at h
  exact ⟨List.mem_of_find?_eq_some h, by simpa using List.find?_some h⟩

theorem updateQueryTab_others (id : String) (p : TabPatch) :
    ∀ tabs : List QueryTab, OtherTabsUnchanged id tabs (updateQueryTab tabs id p) := by
  intro tabs
  induction tabs with
  | nil => exact List.Forall₂.nil
  | cons t tabs ih =>
    refine List.Forall₂.cons ?_ ih
    intro ht
    simp [ht]

/-- What `handleExecuteQuery` does when a catalog entry matches and the active
tab exists. -/
theorem handleExecuteQuery_of_match (catalog : List CatalogQuery) (innerWidth : Nat)
    (s : AppState) (query : String) (m : CatalogQuery) (tab : QueryTab)
    (hm : findMatchingQuery catalog query = some m)
    (hTab : findTab s.queryTabs s.activeTabId = some tab) :
    (handleExecuteQuery catalog innerWidth s query).calls
      = [Call.executeQueryAndCreateTab query m.id tab.name,
         Call.executeQuery query m.id tab.name] ∧
    (handleExecuteQuery catalog innerWidth s query).state.customError = none := by
  simp only [handleExecuteQuery, hm, hTab, true_and]
  split <;> split <;> rfl

theorem handleTableClick_queryTabs (catalog : List CatalogQuery) (innerWidth : Nat)
    (newId : String) (s : AppState) (tableName : String) (customSQL : Option String) :
    (handleTableClick catalog innerWidth newId s tableName customSQL).state.queryTabs
      = s.queryTabs ++ [tableClickTab catalog newId tableName customSQL] ∧
    (handleTableClick catalog innerWidth newId s tableName customSQL).state.activeTabId
      = newId := by
  unfold handleTableClick
  by_cases hw : innerWidth ≤ 768 <;> simp [hw, tableClickTab]

/-! ### The auto-naming effect on a tab that has its derived name -/

theorem autoNaming_of_named (s : AppState) (tab : QueryTab)
    (hTab : s.isUpdatingTab = false) (hQuery : s.isUpdatingQuery = false)
    (hFind : findTab s.queryTabs s.activeTabId = some tab)
    (hName : deriveTabName tab.query = tab.name) :
    autoNamingEffect s = { state := s, calls := [] } := by
  cases hr : tab.renamed <;> simp [autoNamingEffect, hTab, hQuery, hFind, hr, hName]

theorem findTab_append_new (tabs : List QueryTab) (tab : QueryTab)
    (hNew : tab.id ∉ tabs.map QueryTab.id) :
    findTab (tabs ++ [tab]) tab.id = some tab := by
  induction tabs with
  | nil => simp [findTab, List.find?]
  | cons t tabs ih =>
    have ht : t.id ≠ tab.id := by
      intro h
      exact hNew (by simp [h])
    have hb : (t.id == tab.id) = false := by simpa using ht
    have hrest : tab.id ∉ tabs.map QueryTab.id := by
      intro h
      exact hNew (by simp only [List.map_cons, List.mem_cons]; exact Or.inr h)
    have := ih hrest
    unfold findTab at this ⊢
    rw [List.cons_append, List.find?_cons, hb]
    exact this

/-! ### The matcher on texts of a known shape -/

theorem targetToken_of_token (t rest : List Char) (hne : t ≠ [])
    (hall : ∀ c ∈ t, isTargetChar c = true)
    (hrest : ∀ d, rest.head? = some d → isTargetChar d = false) :
    targetToken (t ++ rest) = some t := by
  have htw : (t ++ rest).takeWhile isTargetChar = t := by
    rw [List.takeWhile_append_of_pos hall]
    cases rest with
    | nil => simp
    | cons d rest => simp [List.takeWhile_cons, hrest d rfl]
  unfold targetToken
  rw [htw]
  cases t with
  | nil => exact absurd rfl hne
  | cons c t => rfl

theorem spacesStarThen_of_no_space {α : Type} (k : List Char → Option α) (body : List Char)
    (hbody : ∀ d, body.head? = some d → isJsSpace d = false) :
    spacesStarThen k body = k body := by
  cases body with
  | nil => rfl
  | cons d body => simp [spacesStarThen, hbody d rfl]

theorem spacesStarThen_skip {α : Type} (k : List Char → Option α) (body : List Char) (r : α)
    (hbody : ∀ d, body.head? = some d → isJsSpace d = false) (hk : k body = some r) :
    ∀ ws : List Char, (∀ c ∈ ws, isJsSpace c = true) →
      spacesStarThen k (ws ++ body) = some r := by
  intro ws
  induction ws with
  | nil =>
    intro _
    rw [List.nil_append, spacesStarThen_of_no_space k body hbody, hk]
  | cons w ws ih =>
    intro hws
    have hw : isJsSpace w = true := hws w (List.mem_cons_self _ _)
    have := ih (fun c hc => hws c (List.mem_cons_of_mem _ hc))
    simp [spacesStarThen, hw, this]

theorem jsTrimChars_eq_self (c : Char) (mid : List Char) (d : Char)
    (hc : isJsSpace c = false) (hd : isJsSpace d = false) :
    jsTrimChars (c :: (mid ++ [d])) = c :: (mid ++ [d]) := by
  unfold jsTrimChars
  rw [List.dropWhile_cons_of_neg (by simp [hc])]
  have hrev : (c :: (mid ++ [d])).reverse = d :: (mid.reverse ++ [c]) := by simp
  rw [hrev, List.dropWhile_cons_of_neg (by simp [hd])]
  simp

/-- The expression on the default text of a table-browser tab. -/
theorem nameRegexMatch_tableText (t : List Char) (hne : t ≠ [])
    (hall : ∀ c ∈ t, isTargetChar c = true) :
    nameRegexMatch ("SELECT * FROM ".data ++ t ++ " LIMIT 100;".data)
      = some ("SELECT".data, t) := by
  have htail : ∀ d, (" LIMIT 100;".data).head? = some d → isTargetChar d = false := by
    decide
  have htok : targetToken (t ++ " LIMIT 100;".data) = some t :=
    targetToken_of_token t _ hne hall htail
  have hhead : ∀ d, (t ++ " LIMIT 100;".data).head? = some d → isJsSpace d = false := by
    intro d hd
    cases t with
    | nil => exact absurd rfl hne
    | cons c t =>
      simp only [List.cons_append, List.head?_cons, Option.some.injEq] at hd
      subst hd
      exact (isTargetChar_true c (hall c (List.mem_cons_self _ _))).1
  have hstar : spacesStarThen targetToken (t ++ " LIMIT 100;".data) = some t := by
    rw [spacesStarThen_of_no_space _ _ hhead, htok]
  have hfrom : fromThen (spacesPlusThen targetToken)
      ('F' :: 'R' :: 'O' :: 'M' :: ' ' :: (t ++ " LIMIT 100;".data)) = some t := by
    have hlit : ciLit "FROM".data ('F' :: 'R' :: 'O' :: 'M' :: ' ' :: (t ++ " LIMIT 100;".data))
        = some (['F', 'R', 'O', 'M'], ' ' :: (t ++ " LIMIT 100;".data)) := by rfl
    have hsp : isJsSpace ' ' = true := by decide
    simp only [fromThen, hlit, spacesPlusThen, hsp, if_true, hstar]
  have h1 : fromThen (spacesPlusThen targetToken)
      ('*' :: ' ' :: 'F' :: 'R' :: 'O' :: 'M' :: ' ' :: (t ++ " LIMIT 100;".data)) = none := by
    rfl
  have h2 : fromThen (spacesPlusThen targetToken)
      (' ' :: 'F' :: 'R' :: 'O' :: 'M' :: ' ' :: (t ++ " LIMIT 100;".data)) = none := by
    rfl
  have hopt : optFromTarget
      ('*' :: ' ' :: 'F' :: 'R' :: 'O' :: 'M' :: ' ' :: (t ++ " LIMIT 100;".data))
        = some t := by
    have hs : isLineTerminator '*' = false := by decide
    have hb : isLineTerminator ' ' = false := by decide
    simp only [optFromTarget, lazyDotsThen, h1, h2, hfrom, hs, hb, Bool.false_eq_true,
      if_false]
  have hplus : spacesPlusThen optFromTarget
      (' ' :: '*' :: ' ' :: 'F' :: 'R' :: 'O' :: 'M' :: ' ' :: (t ++ " LIMIT 100;".data))
        = some t := by
    have hsp : isJsSpace ' ' = true := by decide
    have hst : isJsSpace '*' = false := by decide
    simp only [spacesPlusThen, hsp, if_true, spacesStarThen, hst, Bool.false_eq_true,
      if_false, hopt]
  have hshape : "SELECT * FROM ".data ++ t ++ " LIMIT 100;".data
      = 'S' :: 'E' :: 'L' :: 'E' :: 'C' :: 'T' :: ' ' :: '*' :: ' ' :: 'F' :: 'R' :: 'O' ::
          'M' :: ' ' :: (t ++ " LIMIT 100;".data) := by
    simp
  have hlit : ciLit "SELECT".data
      ('S' :: 'E' :: 'L' :: 'E' :: 'C' :: 'T' :: ' ' :: '*' :: ' ' :: 'F' :: 'R' :: 'O' ::
          'M' :: ' ' :: (t ++ " LIMIT 100;".data))
        = some (['S', 'E', 'L', 'E', 'C', 'T'],
            ' ' :: '*' :: ' ' :: 'F' :: 'R' :: 'O' :: 'M' :: ' ' ::
              (t ++ " LIMIT 100;".data)) := by rfl
  have hS : isJsSpace 'S' = false := by decide
  rw [hshape]
  simp only [nameRegexMatch, spacesStarThen, hS, Bool.false_eq_true, if_false, sqlVerbs,
    verbAltThen, hlit, hplus]

/-! ### The matcher on a text without a FROM clause on the line -/

theorem ciCharEq_of_toUpper (p c : Char) (h : c.toUpper = p) : ciCharEq p c = true := by
  simp only [ciCharEq, Bool.or_eq_true, beq_iff_eq]
  unfold Char.toUpper at h
  by_cases hc : c.toNat ≥ 97 ∧ c.toNat ≤ 122
  · right
    simp only [hc, and_self, if_true] at h
    have hn : 65 ≤ c.toNat - 32 ∧ c.toNat - 32 ≤ 90 := by omega
    generalize hk : c.toNat - 32 = n at h hn
    obtain ⟨hn1, hn2⟩ := hn
    have hpn : p.toNat = n := by
      rw [← h]
      interval_cases n <;> rfl
    omega
  · left
    simp only [hc, if_false] at h
    rw [h]

theorem ciLit_of_spelling :
    ∀ (ps m rest : List Char),
      m.map Char.toUpper = ps → ciLit ps (m ++ rest) = some (m, rest) := by
  intro ps
  induction ps with
  | nil =>
    intro m rest hm
    have : m = [] := by simpa using hm
    subst this
    rfl
  | cons p ps ih =>
    intro m rest hm
    cases m with
    | nil => simp at hm
    | cons c m =>
      simp only [List.map_cons, List.cons.injEq] at hm
      have hc := ciCharEq_of_toUpper p c hm.1
      have hrec := ih m rest hm.2
      simp [ciLit, hc, hrec]

theorem sqlVerbs_no_prefix :
    ∀ v ∈ sqlVerbs, ∀ w ∈ sqlVerbs, v.data <+: w.data → v = w := by
  decide

/-- A text that starts with the spelling of one verb is matched by no other
alternative, and by that one with exactly this spelling. -/
theorem ciLit_verb_unique (verb rest : List Char) (hVerb : IsVerbSpelling verb)
    (w : String) (hw : w ∈ sqlVerbs) (m r : List Char)
    (hm : ciLit w.data (verb ++ rest) = some (m, r)) : m = verb ∧ r = rest := by
  obtain ⟨v, hv, hverb⟩ := hVerb
  obtain ⟨hcs, hfa⟩ := ciLit_some _ _ _ _ hm
  have hmw : m.map Char.toUpper = w.data :=
    map_toUpper_of_ciLit _ _ (sqlVerbs_upper w hw) hfa
  have hp1 : m <+: verb ++ rest := ⟨r, hcs.symm⟩
  have hp2 : verb <+: verb ++ rest := List.prefix_append _ _
  have hmv : m = verb := by
    rcases Nat.le_total m.length verb.length with hle | hle
    · have hpre := List.prefix_of_prefix_length_le hp1 hp2 hle
      have hpre' := List.IsPrefix.map Char.toUpper hpre
      rw [hmw, hverb] at hpre'
      have hwv := sqlVerbs_no_prefix w hw v hv hpre'
      subst hwv
      have hlen : m.length = verb.length := by
        have h1 := congrArg List.length hmw
        have h2 := congrArg List.length hverb
        simp only [List.length_map] at h1 h2
        omega
      exact hpre.eq_of_length hlen
    · have hpre := List.prefix_of_prefix_length_le hp2 hp1 hle
      have hpre' := List.IsPrefix.map Char.toUpper hpre
      rw [hmw, hverb] at hpre'
      have hwv := sqlVerbs_no_prefix v hv w hw hpre'
      subst hwv
      have hlen : verb.length = m.length := by
        have h1 := congrArg List.length hmw
        have h2 := congrArg List.length hverb
        simp only [List.length_map] at h1 h2
        omega
      exact (hpre.eq_of_length hlen).symm
  subst hmv
  exact ⟨rfl, (List.append_cancel_left hcs).symm⟩

theorem verbAltThen_of_unique {α : Type} (k : List Char → List Char → Option α)
    (cs m r : List Char) (x : α) (hk : k m r = some x) :
    ∀ vs : List String,
      (∀ w ∈ vs, ∀ m' r', ciLit w.data cs = some (m', r') → m' = m ∧ r' = r) →
      (∃ v ∈ vs, ciLit v.data cs = some (m, r)) →
      verbAltThen k vs cs = some x := by
  intro vs
  induction vs with
  | nil => rintro - ⟨v, hv, -⟩; cases hv
  | cons w vs ih =>
    intro huniq hex
    simp only [verbAltThen]
    cases hl : ciLit w.data cs with
    | some pr =>
      obtain ⟨m', r'⟩ := pr
      obtain ⟨rfl, rfl⟩ := huniq w (List.mem_cons_self _ _) m' r' hl
      simp [hk]
    | none =>
      simp only []
      apply ih (fun w' hw' => huniq w' (List.mem_cons_of_mem _ hw'))
      obtain ⟨v, hv, hlit⟩ := hex
      rcases List.mem_cons.mp hv with rfl | hv'
      · rw [hl] at hlit; cases hlit
      · exact ⟨v, hv', hlit⟩

theorem lazyDotsThen_some_line {α : Type} (k : List Char → Option α) (r : α) :
    ∀ cs : List Char, lazyDotsThen k cs = some r →
      ∃ pre rest, cs = pre ++ rest ∧ (∀ d ∈ pre, isLineTerminator d = false) ∧
        k rest = some r := by
  intro cs
  induction cs with
  | nil =>
    intro h
    exact ⟨[], [], rfl, by simp, by simpa [lazyDotsThen] using h⟩
  | cons c cs ih =>
    intro h
    simp only [lazyDotsThen] at h
    cases hk : k (c :: cs) with
    | some r' =>
      simp only [hk, Option.some.injEq] at h
      subst h
      exact ⟨[], c :: cs, rfl, by simp, hk⟩
    | none =>
      simp only [hk] at h
      by_cases hc : isLineTerminator c = true
      · simp [hc] at h
      · simp only [hc, if_false] at h
        obtain ⟨pre, rest, h1, h2, h3⟩ := ih h
        refine ⟨c :: pre, rest, by simp [h1], ?_, h3⟩
        intro d hd
        rcases List.mem_cons.mp hd with rfl | hd
        · simpa using hc
        · exact h2 d hd

/-- The path through the optional group succeeds only where a FROM clause
stands on the line. -/
theorem fromOnLine_of_group (body t : List Char)
    (h : lazyDotsThen (fromThen (spacesPlusThen targetToken)) body = some t) :
    FromOnLine body := by
  obtain ⟨pre, rest, h1, hpre, hf⟩ := lazyDotsThen_some_line _ t body h
  unfold fromThen at hf
  cases hlit : ciLit "FROM".data rest with
  | none => simp [hlit] at hf
  | some pr =>
    obtain ⟨m, r3⟩ := pr
    simp only [hlit] at hf
    obtain ⟨h3, hfa⟩ := ciLit_some _ _ _ _ hlit
    have hm : m.map Char.toUpper = "FROM".data :=
      map_toUpper_of_ciLit _ _ (by decide) hfa
    obtain ⟨sp, c, r4, h4, hsp, hc, hk⟩ := spacesPlusThen_some targetToken t r3 hf
    obtain ⟨hne, hall, post, h5, -⟩ := targetToken_some r4 t hk
    cases t with
    | nil => exact absurd rfl hne
    | cons e t =>
      refine ⟨pre, m, sp ++ [c], e, t ++ post, ?_, hpre, hm, by simp, ?_,
        hall e (List.mem_cons_self _ _)⟩
      · rw [h1, h3, h4, h5]; simp
      · intro d hd
        rcases List.mem_append.mp hd with hd | hd
        · exact hsp d hd
        · rw [List.mem_singleton] at hd
          subst hd
          exact hc

theorem verbSpelling_head_no_space (verb rest : List Char) (hVerb : IsVerbSpelling verb) :
    ∀ d, (verb ++ rest).head? = some d → isJsSpace d = false := by
  obtain ⟨v, hv, hverb⟩ := hVerb
  intro d hd
  cases verb with
  | nil =>
    have : ∀ v ∈ sqlVerbs, v.data ≠ [] := by decide
    exact absurd (by simpa using hverb.symm) (this v hv)
  | cons c verb =>
    simp only [List.cons_append, List.head?_cons, Option.some.injEq] at hd
    subst hd
    cases hvd : v.data with
    | nil => rw [hvd] at hverb; simp at hverb
    | cons p ps =>
      rw [hvd] at hverb
      simp only [List.map_cons, List.cons.injEq] at hverb
      have hp : 65 ≤ p.toNat ∧ p.toNat ≤ 90 :=
        sqlVerbs_upper v hv p (by rw [hvd]; exact List.mem_cons_self _ _)
      have hci := ciCharEq_of_toUpper p c hverb.1
      simp only [ciCharEq, Bool.or_eq_true, beq_iff_eq] at hci
      have hrange : 65 ≤ c.toNat ∧ c.toNat ≤ 122 := by omega
      simp only [isJsSpace, jsSpaceCodes, List.contains_eq_any_beq, List.any_cons,
        List.any_nil, Bool.or_false, Bool.or_eq_false_iff, beq_eq_false_iff_ne, ne_eq]
      omega

/-- The expression on a text made of a verb spelling, white space and a token,
with no FROM clause on the line of the token: the captures are the verb and
the token. -/
theorem nameRegexMatch_of_no_from (verb ws token post : List Char)
    (hVerb : IsVerbSpelling verb)
    (hWsNonEmpty : ws ≠ []) (hWs : ∀ c ∈ ws, isJsSpace c = true)
    (hTokenNonEmpty : token ≠ []) (hToken : ∀ c ∈ token, isTargetChar c = true)
    (hPost : ∀ d, post.head? = some d → isTargetChar d = false)
    (hNoFrom : ¬ FromOnLine (token ++ post)) :
    nameRegexMatch (verb ++ (ws ++ (token ++ post))) = some (verb, token) := by
  have hgroup : lazyDotsThen (fromThen (spacesPlusThen targetToken)) (token ++ post)
      = none := by
    cases hg : lazyDotsThen (fromThen (spacesPlusThen targetToken)) (token ++ post) with
    | none => rfl
    | some t => exact absurd (fromOnLine_of_group _ t hg) hNoFrom
  have hopt : optFromTarget (token ++ post) = some token := by
    simp only [optFromTarget, hgroup]
    exact targetToken_of_token token post hTokenNonEmpty hToken hPost
  have hbody : ∀ d, (token ++ post).head? = some d → isJsSpace d = false := by
    intro d hd
    cases token with
    | nil => exact absurd rfl hTokenNonEmpty
    | cons c token =>
      simp only [List.cons_append, List.head?_cons, Option.some.injEq] at hd
      subst hd
      exact (isTargetChar_true c (hToken c (List.mem_cons_self _ _))).1
  have hplus : spacesPlusThen optFromTarget (ws ++ (token ++ post)) = some token := by
    cases ws with
    | nil => exact absurd rfl hWsNonEmpty
    | cons w ws =>
      have hw : isJsSpace w = true := hWs w (List.mem_cons_self _ _)
      simp only [List.cons_append, spacesPlusThen, hw, if_true]
      exact spacesStarThen_skip optFromTarget _ token hbody hopt ws
        (fun c hc => hWs c (List.mem_cons_of_mem _ hc))
  obtain ⟨v, hv, hverb⟩ := hVerb
  have hlit : ciLit v.data (verb ++ (ws ++ (token ++ post)))
      = some (verb, ws ++ (token ++ post)) :=
    ciLit_of_spelling v.data verb _ hverb
  unfold nameRegexMatch
  rw [spacesStarThen_of_no_space _ _
    (verbSpelling_head_no_space verb _ ⟨v, hv, hverb⟩)]
  apply verbAltThen_of_unique _ _ verb (ws ++ (token ++ post)) (verb, token)
  · simp [hplus]
  · intro w hw m' r' hm'
    exact ciLit_verb_unique verb _ ⟨v, hv, hverb⟩ w hw m' r' hm'
  · exact ⟨v, hv, hlit⟩

theorem no_from_on_star_line : ¬ FromOnLine "*\nFROM orders".data := by
  rintro ⟨pre, word, sp, c, rest, hbody, hpre, hword, -, -, -⟩
  have hshape : "*\nFROM orders".data
      = ['*', '\n', 'F', 'R', 'O', 'M', ' ', 'o', 'r', 'd', 'e', 'r', 's'] := by decide
  have hfrom : "FROM".data = ['F', 'R', 'O', 'M'] := by decide
  rw [hshape] at hbody
  rw [hfrom] at hword
  cases word with
  | nil => simp at hword
  | cons w word =>
    simp only [List.map_cons, List.cons.injEq] at hword
    have hw := hword.1
    cases pre with
    | nil =>
      simp only [List.nil_append, List.cons_append, List.cons.injEq] at hbody
      rw [← hbody.1] at hw
      revert hw
      decide
    | cons a pre =>
      cases pre with
      | nil =>
        simp only [List.cons_append, List.nil_append, List.cons.injEq] at hbody
        rw [← hbody.2.1] at hw
        revert hw
        decide
      | cons b pre =>
        simp only [List.cons_append, List.cons.injEq] at hbody
        have hb := hpre b (by simp)
        rw [← hbody.2.1] at hb
        revert hb
        decide

/-! ## The claims -/

/-- C1. Guard mutual exclusion: from a state with both guards clear, after any
sequence of runs of the tab->text, text->tab and auto-naming effect bodies and
of the deferred guard-clearing callbacks, the two guards are not both set. -/
theorem guards_never_both_set (s : AppState) (es : List SyncEvent)
    (hTab : s.isUpdatingTab = false) (hQuery : s.isUpdatingQuery = false) :
    ¬ ((runEvents s es).isUpdatingTab = true ∧ (runEvents s es).isUpdatingQuery = true) :=
  runEvents_guardsExclusive es s (by simp [GuardsExclusive, hTab, hQuery])

/-- Witness of C1: a tab switch, a text->tab run and the two deferred callbacks
from the sample state. -/
theorem guards_never_both_set_witness :
    ¬ ((runEvents sampleState
          [.tabToText (some renamedTab), .textToTab, .deferred .clearUpdatingTab,
           .textToTab, .autoNaming]).isUpdatingTab = true ∧
       (runEvents sampleState
          [.tabToText (some renamedTab), .textToTab, .deferred .clearUpdatingTab,
           .textToTab, .autoNaming]).isUpdatingQuery = true) :=
  guards_never_both_set sampleState _ rfl rfl

/-- C2, counterexample. In the sample state the editor's text of the second
catalog entry is run: `handleExecuteQuery` switches `currentQueryId`, the first
pass of the reactions updates the tab once and the reset effect rewrites
`queryText`, and the second pass updates the tab again; the same second update
is made when the tab->text effect runs first in that commit (Guard B is still
set, so it skips). -/
theorem one_update_per_change_counterexample :
    sampleState.isUpdatingTab = false ∧ sampleState.isUpdatingQuery = false ∧
    (firstPass sampleCatalog 1024 sampleState
      (.execute "SELECT * FROM orders;")).tabUpdates = 1 ∧
    (secondPass sampleCatalog 1024 sampleState
      (.execute "SELECT * FROM orders;")).tabUpdates = 1 ∧
    (textToTabEffect
      (tabToTextEffect
        (findTab (firstPass sampleCatalog 1024 sampleState
          (.execute "SELECT * FROM orders;")).state.queryTabs "t1")
        (firstPass sampleCatalog 1024 sampleState
          (.execute "SELECT * FROM orders;")).state).state).tabUpdates = 1 := by
  decide

/-- C2, amended. From a state with both guards clear, each pass of the
synchronisation reactions after one user change makes at most one
`updateQueryTab` call; a third pass makes none; and the second pass makes none
after a text edit or a choice in the query selector, and after any change that
left `currentQueryId` as it was. Only the `currentQueryId` switch of
`handleExecuteQuery` can cause a second update. -/
theorem sync_updates_bounded (catalog : List CatalogQuery) (innerWidth : Nat)
    (s : AppState) (u : UserChange)
    (hTab : s.isUpdatingTab = false) (hQuery : s.isUpdatingQuery = false) :
    (firstPass catalog innerWidth s u).tabUpdates ≤ 1 ∧
    (secondPass catalog innerWidth s u).tabUpdates ≤ 1 ∧
    (thirdPass catalog innerWidth s u).tabUpdates = 0 ∧
    ((∀ query, u ≠ .execute query) → (secondPass catalog innerWidth s u).tabUpdates = 0) ∧
    ((applyUserChange catalog innerWidth s u).currentQueryId = s.currentQueryId →
      (secondPass catalog innerWidth s u).tabUpdates = 0) := by
  have _ := hQuery
  have hA1 : (firstPass catalog innerWidth s u).state.isUpdatingTab = false := by
    rw [firstPass_isUpdatingTab]; exact hTab
  have hsync2 : InSync (secondPass catalog innerWidth s u).state := by
    rw [secondPass_eq]; exact (textToTab_facts _).2.2.2.2.2.1 hA1
  have key : InSync (firstPass catalog innerWidth s u).state →
      (secondPass catalog innerWidth s u).tabUpdates = 0 := by
    intro h
    rw [secondPass_eq]
    exact ((textToTab_facts _).2.2.2.2.2.2 h).1
  refine ⟨?_, ?_, ?_, ?_, ?_⟩
  · unfold firstPass
    rw [(syncReactions_facts _ _ _).2.2.2.2.1]
    exact (textToTab_facts _).2.2.2.2.1
  · rw [secondPass_eq]
    exact (textToTab_facts _).2.2.2.2.1
  · rw [thirdPass_eq]
    exact ((textToTab_facts _).2.2.2.2.2.2 hsync2).1
  · intro hne
    apply key
    cases u with
    | editText text => exact firstPass_inSync_of_same _ _ _ _ hTab rfl
    | selectQuery queryId => exact firstPass_inSync_of_select _ _ _ _ hTab
    | execute query => exact absurd rfl (hne query)
  · intro hsame
    exact key (firstPass_inSync_of_same _ _ _ _ hTab hsame)

/-- Witness of C2, amended: a text edit in the sample state; one update in the
first pass, none afterwards. -/
theorem sync_updates_bounded_witness :
    sampleState.isUpdatingTab = false ∧ sampleState.isUpdatingQuery = false ∧
    (firstPass sampleCatalog 1024 sampleState (.editText "SELECT 1;")).tabUpdates = 1 ∧
    (secondPass sampleCatalog 1024 sampleState (.editText "SELECT 1;")).tabUpdates = 0 ∧
    (thirdPass sampleCatalog 1024 sampleState (.editText "SELECT 1;")).tabUpdates = 0 :=
  ⟨rfl, rfl, by decide,
    (sync_updates_bounded sampleCatalog 1024 sampleState (.editText "SELECT 1;")
      rfl rfl).2.2.2.1 (fun _ h => by cases h),
    (sync_updates_bounded sampleCatalog 1024 sampleState (.editText "SELECT 1;")
      rfl rfl).2.2.1⟩

/-- C3. The text->tab reaction: run with Guard A set it makes no `updateQueryTab`
call and leaves Guard B as it was (the state is unchanged); run with Guard A
clear it sets Guard B, every tab keeps its id, name and renamed flag, a tab with
another id than the active one is unchanged, and the active tab, if there is
one, afterwards stores `queryText` and `currentQueryId`. -/
theorem textToTab_reaction (s : AppState) :
    if s.isUpdatingTab = true then
      (textToTabEffect s).tabUpdates = 0 ∧
      (textToTabEffect s).state.isUpdatingQuery = s.isUpdatingQuery ∧
      (textToTabEffect s).state = s
    else
      (textToTabEffect s).state.isUpdatingQuery = true ∧
      OnlyQueryFieldsChanged s.activeTabId s.queryTabs (textToTabEffect s).state.queryTabs ∧
      ∀ tab, findTab s.queryTabs s.activeTabId = some tab →
        ∃ tab', findTab (textToTabEffect s).state.queryTabs s.activeTabId = some tab' ∧
          tab'.query = s.queryText ∧ tab'.queryId = s.currentQueryId ∧
          tab'.id = tab.id ∧ tab'.name = tab.name ∧ tab'.renamed = tab.renamed := by
  cases hA : s.isUpdatingTab
  · simp only [Bool.false_eq_true, if_false]
    cases hf : findTab s.queryTabs s.activeTabId with
    | none =>
      simp [textToTabEffect, hA, hf, onlyQueryFieldsChanged_refl]
    | some tab =>
      by_cases hd : (tab.query != s.queryText || tab.queryId != s.currentQueryId) = true
      · refine ⟨?_, ?_, ?_⟩
        · simp [textToTabEffect, hA, hf, hd]
        · simp only [textToTabEffect, hA, hf, hd, Bool.false_eq_true, if_false, if_true]
          exact updateQueryTab_frame _ _ rfl rfl _
        · intro tab0 h0
          simp only [Option.some.injEq] at h0
          subst h0
          refine ⟨TabPatch.mergeInto
            { query := some s.queryText, queryId := some s.currentQueryId } tab, ?_, ?_⟩
          · simp only [textToTabEffect, hA, hf, hd, Bool.false_eq_true, if_false, if_true]
            exact findTab_updateQueryTab _ _ _ _ hf
          · simp [TabPatch.mergeInto]
      · have hq : tab.query = s.queryText ∧ tab.queryId = s.currentQueryId := by
          simpa using hd
        refine ⟨?_, ?_, ?_⟩
        · simp [textToTabEffect, hA, hf, hd]
        · simp only [textToTabEffect, hA, hf, hd, Bool.false_eq_true, if_false]
          exact onlyQueryFieldsChanged_refl _ _
        · intro tab0 h0
          simp only [Option.some.injEq] at h0
          subst h0
          refine ⟨tab, ?_, hq.1, hq.2, rfl, rfl, rfl⟩
          simp only [textToTabEffect, hA, hf, hd, Bool.false_eq_true, if_false]
  · simp [textToTabEffect, hA, Outcome.tabUpdates]

/-- C4. The tab->text reaction: run with Guard B set it changes neither
`currentQueryId` nor `queryText` nor Guard A; run with Guard B clear it sets
Guard A, copies the active tab's `queryId` and `query` into `currentQueryId` and
`queryText`, and leaves the tab collection unchanged. -/
theorem tabToText_reaction (activeTab : QueryTab) (s : AppState) :
    if s.isUpdatingQuery = true then
      (tabToTextEffect (some activeTab) s).state.currentQueryId = s.currentQueryId ∧
      (tabToTextEffect (some activeTab) s).state.queryText = s.queryText ∧
      (tabToTextEffect (some activeTab) s).state.isUpdatingTab = s.isUpdatingTab
    else
      (tabToTextEffect (some activeTab) s).state.isUpdatingTab = true ∧
      (tabToTextEffect (some activeTab) s).state.currentQueryId = activeTab.queryId ∧
      (tabToTextEffect (some activeTab) s).state.queryText = activeTab.query ∧
      (tabToTextEffect (some activeTab) s).state.queryTabs = s.queryTabs := by
  cases hB : s.isUpdatingQuery <;> simp [tabToTextEffect, hB]

/-- C5, counterexample. With both guards clear, the history tab (catalog
reference of the second entry, text with a final line break) is activated while
`currentQueryId` names the first entry: after the tab->text and the reset effect
`queryText` is the catalog text, not the tab's stored query. And with Guard B
set the tab->text effect skips, so neither `queryText` nor `currentQueryId`
follows the activated tab. -/
theorem activation_agreement_counterexample :
    (historyState.isUpdatingTab = false ∧ historyState.isUpdatingQuery = false ∧
      historyState.currentQueryId ≠ historyTab.queryId ∧
      (afterActivation sampleCatalog historyState historyTab).queryText ≠ historyTab.query) ∧
    ((afterActivation sampleCatalog { sampleState with isUpdatingQuery := true }
        renamedTab).queryText ≠ renamedTab.query ∧
      (afterActivation sampleCatalog { sampleState with isUpdatingQuery := true }
        renamedTab).currentQueryId ≠ renamedTab.queryId) := by
  decide

/-- C5, amended. When a tab is activated with Guard B clear: after the tab->text
effect `currentQueryId` is the tab's `queryId` and `queryText` is its stored
query; after the reset effect has run too, `currentQueryId` is still the tab's
`queryId`, and `queryText` is the text of the catalog entry with that id when
there is one and the tab's stored query otherwise. -/
theorem activation_agreement (catalog : List CatalogQuery) (s : AppState) (tab : QueryTab)
    (hQuery : s.isUpdatingQuery = false) :
    (afterTabToText s tab).currentQueryId = tab.queryId ∧
    (afterTabToText s tab).queryText = tab.query ∧
    (afterActivation catalog s tab).currentQueryId = tab.queryId ∧
    (afterActivation catalog s tab).queryText =
      (match findQuery catalog tab.queryId with
       | some q => q.query
       | none => tab.query) := by
  have h1 : (afterTabToText s tab).currentQueryId = tab.queryId := by
    simp [afterTabToText, tabToTextEffect, activateTab, hQuery]
  have h2 : (afterTabToText s tab).queryText = tab.query := by
    simp [afterTabToText, tabToTextEffect, activateTab, hQuery]
  refine ⟨h1, h2, ?_, ?_⟩
  · unfold afterActivation resetQueryTextEffect
    cases findQuery catalog (afterTabToText s tab).currentQueryId <;> simp [h1]
  · unfold afterActivation resetQueryTextEffect
    rw [h1]
    cases findQuery catalog tab.queryId <;> simp [h2]

/-- Witness of C5, amended: the second sample tab, which stores its catalog text
verbatim, is activated in the sample state; editor and tab agree. -/
theorem activation_agreement_witness :
    sampleState.isUpdatingQuery = false ∧
    (afterActivation sampleCatalog sampleState renamedTab).currentQueryId = "q2" ∧
    (afterActivation sampleCatalog sampleState renamedTab).queryText = renamedTab.query :=
  ⟨rfl, (activation_agreement sampleCatalog sampleState renamedTab rfl).2.2.1,
    (activation_agreement sampleCatalog sampleState renamedTab rfl).2.2.2⟩

/-- C6. A renamed tab keeps its name: when the active tab has `renamed = true`,
after the tab->text effect, after the text->tab effect and after the auto-naming
effect the active tab id is the same and the tab found under it has the same
name and `renamed = true`, whatever the query text is. -/
theorem renamed_tab_keeps_name (s : AppState) (activeTab : Option QueryTab) (tab : QueryTab)
    (hFind : findTab s.queryTabs s.activeTabId = some tab) (hRenamed : tab.renamed = true) :
    ((tabToTextEffect activeTab s).state.activeTabId = s.activeTabId ∧
      (findTab (tabToTextEffect activeTab s).state.queryTabs s.activeTabId).map
        (fun t => (t.name, t.renamed)) = some (tab.name, true)) ∧
    ((textToTabEffect s).state.activeTabId = s.activeTabId ∧
      (findTab (textToTabEffect s).state.queryTabs s.activeTabId).map
        (fun t => (t.name, t.renamed)) = some (tab.name, true)) ∧
    ((autoNamingEffect s).state.activeTabId = s.activeTabId ∧
      (findTab (autoNamingEffect s).state.queryTabs s.activeTabId).map
        (fun t => (t.name, t.renamed)) = some (tab.name, true)) := by
  refine ⟨?_, ?_, ?_⟩
  · cases hB : s.isUpdatingQuery <;> cases activeTab <;>
      simp [tabToTextEffect, hB, hFind, hRenamed]
  · have h3 := textToTab_unfold s
    rcases h3 with h | ⟨p, hn, hr, h1, h2⟩
    · rw [h.1]; exact ⟨h.2, by simp [hFind, hRenamed]⟩
    · refine ⟨h1, ?_⟩
      rw [h2, findTab_updateQueryTab _ _ _ _ hFind]
      simp [TabPatch.mergeInto, hn, hr, hRenamed]
  · have : (autoNamingEffect s).state = s := by
      cases hA : s.isUpdatingTab <;> cases hB : s.isUpdatingQuery <;>
        simp [autoNamingEffect, hA, hB, hFind, hRenamed]
    rw [this]
    exact ⟨rfl, by simp [hFind, hRenamed]⟩

/-- Witness of C6: the sample state with the renamed tab active and a query text
the heuristic would name "SELECT orders". -/
theorem renamed_tab_keeps_name_witness :
    (findTab { sampleState with activeTabId := "t2" }.queryTabs "t2" = some renamedTab ∧
      renamedTab.renamed = true) ∧
    (findTab (textToTabEffect { sampleState with activeTabId := "t2" }).state.queryTabs
      "t2").map (fun t => (t.name, t.renamed)) = some ("My report", true) ∧
    (findTab (autoNamingEffect { sampleState with activeTabId := "t2" }).state.queryTabs
      "t2").map (fun t => (t.name, t.renamed)) = some ("My report", true) :=
  ⟨⟨by decide, rfl⟩,
    (renamed_tab_keeps_name { sampleState with activeTabId := "t2" } (some renamedTab)
      renamedTab (by decide) rfl).2.1.2,
    (renamed_tab_keeps_name { sampleState with activeTabId := "t2" } (some renamedTab)
      renamedTab (by decide) rfl).2.2.2⟩

/-- C7. The auto-naming examples: the name derived from "SELECT * FROM orders;" is
"SELECT orders", and the name derived from "garbage" is "New Query". -/
theorem deriveTabName_examples :
    deriveTabName "SELECT * FROM orders;" = "SELECT orders" ∧
    deriveTabName "garbage" = "New Query" := by
  decide

/-- C8. The form of a derived name: for every text it is "New Query" or a verb
spelling (one of the seven verbs in any case, the leading word of the trimmed
text), a blank and a target token of the text without white space or `;`; and a
text whose trimmed form does not start with a verb followed by white space gets
"New Query". -/
theorem deriveTabName_form (text : String) :
    (deriveTabName text = "New Query" ∨ IsVerbTargetName text (deriveTabName text)) ∧
    (¬ StartsWithVerbAndSpace text → deriveTabName text = "New Query") := by
  cases hm : nameRegexMatch (jsTrimChars text.data) with
  | none =>
    have : deriveTabName text = "New Query" := by simp [deriveTabName, hm]
    exact ⟨Or.inl this, fun _ => this⟩
  | some pr =>
    obtain ⟨action, target⟩ := pr
    have hform := deriveTabName_of_match text action target hm
    refine ⟨Or.inr hform, fun hno => absurd ?_ hno⟩
    obtain ⟨verb, gap, c, tgt, post, -, -, -, hcs, hverb, ⟨c0, hc0, hs0⟩, -⟩ := hform
    cases gap with
    | nil =>
      simp only [List.nil_append, List.head?_cons, Option.some.injEq] at hc0
      subst hc0
      exact ⟨verb, c, tgt ++ post, by simpa using hcs, hverb, hs0⟩
    | cons a gap =>
      simp only [List.cons_append, List.head?_cons, Option.some.injEq] at hc0
      subst hc0
      exact ⟨verb, a, gap ++ c :: (tgt ++ post), by simpa using hcs, hverb, hs0⟩

/-- Witness of C8: "garbage" does not start with a verb, and its name is
"New Query". -/
theorem deriveTabName_form_witness :
    ¬ StartsWithVerbAndSpace "garbage" ∧ deriveTabName "garbage" = "New Query" :=
  ⟨garbage_not_verb_start, (deriveTabName_form "garbage").2 garbage_not_verb_start⟩

/-- C9. The auto-naming effect does nothing while a guard is set: it makes no
call, hence no `updateQueryTab` call, and leaves the state, hence every tab,
unchanged. -/
theorem autoNaming_skips_under_guard (s : AppState)
    (hGuard : s.isUpdatingTab = true ∨ s.isUpdatingQuery = true) :
    (autoNamingEffect s).tabUpdates = 0 ∧ (autoNamingEffect s).calls = [] ∧
    (autoNamingEffect s).state.queryTabs = s.queryTabs ∧ (autoNamingEffect s).state = s := by
  rcases hGuard with h | h <;> simp [autoNamingEffect, h, Outcome.tabUpdates]

/-- Witness of C9: the sample state with Guard A set. -/
theorem autoNaming_skips_under_guard_witness :
    ({ sampleState with isUpdatingTab := true } : AppState).isUpdatingTab = true ∧
    (autoNamingEffect { sampleState with isUpdatingTab := true }).tabUpdates = 0 ∧
    (autoNamingEffect { sampleState with isUpdatingTab := true }).calls = [] :=
  ⟨rfl,
    (autoNaming_skips_under_guard { sampleState with isUpdatingTab := true } (Or.inl rfl)).1,
    (autoNaming_skips_under_guard { sampleState with isUpdatingTab := true } (Or.inl rfl)).2.1⟩

/-- C10. Validation rejection: when the trimmed query text equals the trimmed text
of no catalog entry, `handleExecuteQuery` sets the validation message, makes no
call at all (so none to `executeQuery` or `executeQueryAndCreateTab`), and leaves
the query tabs, the output tabs, `activeTabId`, `currentQueryId` and `queryText`
unchanged. -/
theorem handleExecuteQuery_rejects (catalog : List CatalogQuery) (innerWidth : Nat)
    (s : AppState) (query : String)
    (hNoMatch : ∀ q ∈ catalog, jsTrim q.query ≠ jsTrim query) :
    (handleExecuteQuery catalog innerWidth s query).state.customError
      = some validationMessage ∧
    (handleExecuteQuery catalog innerWidth s query).calls.countP Call.isExecution = 0 ∧
    (handleExecuteQuery catalog innerWidth s query).calls = [] ∧
    (handleExecuteQuery catalog innerWidth s query).state.queryTabs = s.queryTabs ∧
    (handleExecuteQuery catalog innerWidth s query).state.outputTabs = s.outputTabs ∧
    (handleExecuteQuery catalog innerWidth s query).state.activeTabId = s.activeTabId ∧
    (handleExecuteQuery catalog innerWidth s query).state.currentQueryId = s.currentQueryId ∧
    (handleExecuteQuery catalog innerWidth s query).state.queryText = s.queryText := by
  have hnone : findMatchingQuery catalog query = none := by
    unfold findMatchingQuery
    rw [List.find?_eq_none]
    intro q hq
    simpa using hNoMatch q hq
  simp [handleExecuteQuery, hnone]

/-- Witness of C10: "SELECT 1;" is not in the sample catalog. -/
theorem handleExecuteQuery_rejects_witness :
    (∀ q ∈ sampleCatalog, jsTrim q.query ≠ jsTrim "SELECT 1;") ∧
    (handleExecuteQuery sampleCatalog 1024 sampleState "SELECT 1;").state.customError
      = some validationMessage ∧
    (handleExecuteQuery sampleCatalog 1024 sampleState "SELECT 1;").calls = [] :=
  ⟨by decide,
    (handleExecuteQuery_rejects sampleCatalog 1024 sampleState "SELECT 1;" (by decide)).1,
    (handleExecuteQuery_rejects sampleCatalog 1024 sampleState "SELECT 1;" (by decide)).2.2.1⟩

/-- C11. Acceptance: with the active tab in the collection, `handleExecuteQuery`
calls `executeQuery` exactly once if and only if the trimmed query text equals
the trimmed text of some catalog entry (and never more than once); the call
then carries the id of the first such entry in catalog order and the active
tab's name as the label, and no validation error is set. -/
theorem handleExecuteQuery_accepts (catalog : List CatalogQuery) (innerWidth : Nat)
    (s : AppState) (query : String) (tab : QueryTab)
    (hTab : findTab s.queryTabs s.activeTabId = some tab) :
    ((handleExecuteQuery catalog innerWidth s query).calls.countP Call.isExecuteQuery = 1 ↔
      ∃ q ∈ catalog, jsTrim q.query = jsTrim query) ∧
    (handleExecuteQuery catalog innerWidth s query).calls.countP Call.isExecuteQuery ≤ 1 ∧
    (∀ (pre : List CatalogQuery) (m : CatalogQuery) (post : List CatalogQuery),
      catalog = pre ++ m :: post → (∀ q ∈ pre, jsTrim q.query ≠ jsTrim query) →
      jsTrim m.query = jsTrim query →
        (handleExecuteQuery catalog innerWidth s query).calls.filter Call.isExecuteQuery
          = [Call.executeQuery query m.id tab.name] ∧
        (handleExecuteQuery catalog innerWidth s query).state.customError = none) := by
  cases hm : findMatchingQuery catalog query with
  | none =>
    have hcalls : (handleExecuteQuery catalog innerWidth s query).calls = [] := by
      simp [handleExecuteQuery, hm]
    have hno := (findMatchingQuery_none_iff catalog query).1 hm
    refine ⟨?_, by simp [hcalls], ?_⟩
    · rw [hcalls]
      constructor
      · intro h; simp at h
      · rintro ⟨q, hq, hq'⟩; exact absurd hq' (hno q hq)
    · intro pre m post hcat hpre hmatch
      rw [hcat, findMatchingQuery_first query m post hmatch pre hpre] at hm
      cases hm
  | some m =>
    obtain ⟨hcalls, herr⟩ := handleExecuteQuery_of_match catalog innerWidth s query m tab hm hTab
    obtain ⟨hmem, hmatch⟩ := findMatchingQuery_some catalog query m hm
    refine ⟨?_, ?_, ?_⟩
    · rw [hcalls]
      constructor
      · intro _; exact ⟨m, hmem, hmatch⟩
      · intro _; simp [Call.isExecuteQuery]
    · rw [hcalls]; simp [Call.isExecuteQuery]
    · intro pre m' post hcat hpre hmatch'
      rw [hcat, findMatchingQuery_first query m' post hmatch' pre hpre] at hm
      simp only [Option.some.injEq] at hm
      subst hm
      rw [hcalls]
      exact ⟨by simp [Call.isExecuteQuery], herr⟩

/-- Witness of C11: the text of the second sample catalog entry is run in the
sample state. -/
theorem handleExecuteQuery_accepts_witness :
    findTab sampleState.queryTabs sampleState.activeTabId = some sampleTab ∧
    (handleExecuteQuery sampleCatalog 1024 sampleState
      "SELECT * FROM orders;").calls.countP Call.isExecuteQuery ≤ 1 ∧
    (handleExecuteQuery sampleCatalog 1024 sampleState
      "SELECT * FROM orders;").calls.filter Call.isExecuteQuery
        = [Call.executeQuery "SELECT * FROM orders;" "q2" "SELECT customers"] :=
  ⟨by decide,
    (handleExecuteQuery_accepts sampleCatalog 1024 sampleState "SELECT * FROM orders;"
      sampleTab (by decide)).2.1,
    ((handleExecuteQuery_accepts sampleCatalog 1024 sampleState "SELECT * FROM orders;"
      sampleTab (by decide)).2.2
        [{ id := "q1", name := "All customers", query := "SELECT * FROM customers;" }]
        { id := "q2", name := "All orders", query := "SELECT * FROM orders;" } []
        rfl (by decide) (by decide)).1⟩

/-- C12. A declined clear-all in full screen: the confirmation is declined, the
output tabs and the results stay, and `isFullScreen` has gone from true to
false, so the state is not the one before the call. -/
theorem handleClearResults_declined_in_fullscreen :
    fullScreenState.isFullScreen = true ∧
    (clearAllOutputTabs false { fullScreenState with isFullScreen := false }).2 = false ∧
    (handleClearResults false fullScreenState).state.outputTabs = fullScreenState.outputTabs ∧
    (handleClearResults false fullScreenState).state.results = fullScreenState.results ∧
    (handleClearResults false fullScreenState).state.isFullScreen = false ∧
    (handleClearResults false fullScreenState).state ≠ fullScreenState := by
  decide

/-- C13. The handler `handleClearResults` calls `clearResults` exactly once when
`clearAllOutputTabs` reports that the clear was confirmed and not at all when it
reports "not cleared". -/
theorem handleClearResults_clearResults_calls (confirmed : Bool) (s : AppState) :
    (clearAllOutputTabs confirmed
      (if s.isFullScreen then { s with isFullScreen := false } else s)).2 = confirmed ∧
    (handleClearResults confirmed s).calls.countP Call.isClearResults
      = if confirmed then 1 else 0 := by
  cases confirmed <;>
    simp [handleClearResults, clearAllOutputTabs, Call.isClearResults]

/-- C14. Full screen is left on a clear: after a confirmed `handleClearResults`
the results are empty and `isFullScreen` is false; and after a render in which
`results` differs from the previous render, the effect of lines 276-278 calls
`checkExitFullScreen` with the current results. -/
theorem fullscreen_exit_on_clear (s t : AppState) (prevResults : Option (List String))
    (otherDepChanged : Bool) (hChanged : prevResults ≠ t.results) :
    (handleClearResults true s).state.results = none ∧
    (handleClearResults true s).state.isFullScreen = false ∧
    (fullScreenCheckReaction prevResults otherDepChanged t).calls
      = [Call.checkExitFullScreen t.results] := by
  refine ⟨?_, ?_, ?_⟩
  · simp [handleClearResults, clearAllOutputTabs, clearResults]
  · cases hF : s.isFullScreen <;>
      simp [handleClearResults, clearAllOutputTabs, clearResults, hF]
  · have : (prevResults != t.results) = true := by simpa using hChanged
    simp [fullScreenCheckReaction, this, checkExitFullScreenEffect]

/-- Witness of C14: the clear is confirmed in the full-screen sample state, and
the effect runs on the state it leaves. -/
theorem fullscreen_exit_on_clear_witness :
    fullScreenState.results ≠ (handleClearResults true fullScreenState).state.results ∧
    (handleClearResults true fullScreenState).state.isFullScreen = false ∧
    (fullScreenCheckReaction fullScreenState.results false
      (handleClearResults true fullScreenState).state).calls
        = [Call.checkExitFullScreen none] :=
  ⟨by decide,
    (fullscreen_exit_on_clear fullScreenState (handleClearResults true fullScreenState).state
      fullScreenState.results false (by decide)).2.1,
    (fullscreen_exit_on_clear fullScreenState (handleClearResults true fullScreenState).state
      fullScreenState.results false (by decide)).2.2⟩

/-- C15. A stale history entry: when `createTabFromHistory` returned null,
`handleHistorySelect` sets the history warning as the custom error, makes no call
to `executeQueryAndCreateTab` or `executeQuery` whatever `shouldExecute` is, and
leaves the query tabs and the output tabs as they were. -/
theorem handleHistorySelect_stale (s : AppState) (historyItem : HistoryItem)
    (shouldExecute : Bool) :
    (handleHistorySelect none s historyItem shouldExecute).state.customError
      = some historyWarning ∧
    (handleHistorySelect none s historyItem shouldExecute).calls.countP Call.isExecution = 0 ∧
    (handleHistorySelect none s historyItem shouldExecute).calls
      = [Call.createTabFromHistory historyItem] ∧
    (handleHistorySelect none s historyItem shouldExecute).state.queryTabs = s.queryTabs ∧
    (handleHistorySelect none s historyItem shouldExecute).state.outputTabs = s.outputTabs := by
  simp [handleHistorySelect, Call.isExecution]

/-- C16, counterexample. For the table `orders` without custom text the created
tab holds the template text with its final semicolon, which is not the text
`SELECT * FROM orders LIMIT 100` of the claim; and with the empty string as
custom text it holds the template text, not the supplied text. -/
theorem tableClick_query_counterexample :
    ((handleTableClick sampleCatalog 1024 "t9" sampleState "orders" none).state.queryTabs.getLast?.map
        QueryTab.query = some "SELECT * FROM orders LIMIT 100;" ∧
      specTableQuery "orders" none = "SELECT * FROM orders LIMIT 100" ∧
      (tableClickTab sampleCatalog "t9" "orders" none).query ≠ specTableQuery "orders" none) ∧
    ((handleTableClick sampleCatalog 1024 "t9" sampleState "orders"
        (some "")).state.queryTabs.getLast?.map QueryTab.query
          = some "SELECT * FROM orders LIMIT 100;" ∧
      (tableClickTab sampleCatalog "t9" "orders" (some "")).query
        ≠ specTableQuery "orders" (some "")) := by
  decide

/-- C16, amended. The handler `handleTableClick` appends one tab whose query text
is the custom text when a non-empty one is supplied, and otherwise (none, or the
empty string) is `SELECT * FROM <tableName> LIMIT 100;`, semicolon included. -/
theorem tableClick_query (catalog : List CatalogQuery) (innerWidth : Nat) (newId : String)
    (s : AppState) (tableName : String) (customSQL : Option String) :
    (handleTableClick catalog innerWidth newId s tableName customSQL).state.queryTabs
      = s.queryTabs ++ [tableClickTab catalog newId tableName customSQL] ∧
    (∀ custom, customSQL = some custom → custom ≠ "" →
      (tableClickTab catalog newId tableName customSQL).query = custom) ∧
    (customSQL = none ∨ customSQL = some "" →
      (tableClickTab catalog newId tableName customSQL).query
        = "SELECT * FROM " ++ tableName ++ " LIMIT 100;") := by
  refine ⟨(handleTableClick_queryTabs _ _ _ _ _ _).1, ?_, ?_⟩
  · intro custom hc hne
    subst hc
    simp [tableClickTab, tableClickQuery, hne]
  · rintro (h | h) <;> subst h <;> simp [tableClickTab, tableClickQuery]

/-- Witness of C16, amended: the table `orders` without custom text, and with
the custom text `SELECT 1;`. -/
theorem tableClick_query_witness :
    (tableClickTab sampleCatalog "t9" "orders" none).query
      = "SELECT * FROM " ++ "orders" ++ " LIMIT 100;" ∧
    (tableClickTab sampleCatalog "t9" "orders" (some "SELECT 1;")).query = "SELECT 1;" :=
  ⟨(tableClick_query sampleCatalog 1024 "t9" sampleState "orders" none).2.2 (Or.inl rfl),
    (tableClick_query sampleCatalog 1024 "t9" sampleState "orders" (some "SELECT 1;")).2.1
      "SELECT 1;" rfl (by decide)⟩

/-- C17, counterexample. The text of the tab created for the table `orders`
matches no entry of the sample catalog; the nullable reference of the spec is
null there, while the tab's `queryId` is the empty string, a string and not
null. -/
theorem tableClick_queryId_counterexample :
    (handleTableClick sampleCatalog 1024 "t9" sampleState "orders" none).state.queryTabs.getLast?
      = some (tableClickTab sampleCatalog "t9" "orders" none) ∧
    (∀ q ∈ sampleCatalog,
      jsTrim q.query ≠ jsTrim (tableClickTab sampleCatalog "t9" "orders" none).query) ∧
    specCatalogRef sampleCatalog (tableClickTab sampleCatalog "t9" "orders" none).query = none ∧
    (tableClickTab sampleCatalog "t9" "orders" none).queryId = "" ∧
    some (tableClickTab sampleCatalog "t9" "orders" none).queryId
      ≠ specCatalogRef sampleCatalog (tableClickTab sampleCatalog "t9" "orders" none).query := by
  decide

/-- C17, amended. The `queryId` of the tab created by `handleTableClick` is the id
of the first catalog entry whose trimmed text equals the trimmed query text of
the tab, and is the empty string when the text matches no catalog entry. -/
theorem tableClick_queryId (catalog : List CatalogQuery) (newId tableName : String)
    (customSQL : Option String) :
    (tableClickTab catalog newId tableName customSQL).queryId
      = (specCatalogRef catalog (tableClickTab catalog newId tableName customSQL).query).getD
          "" ∧
    (∀ (pre : List CatalogQuery) (m : CatalogQuery) (post : List CatalogQuery),
      catalog = pre ++ m :: post →
      (∀ q ∈ pre,
        jsTrim q.query ≠ jsTrim (tableClickTab catalog newId tableName customSQL).query) →
      jsTrim m.query = jsTrim (tableClickTab catalog newId tableName customSQL).query →
        (tableClickTab catalog newId tableName customSQL).queryId = m.id) ∧
    ((∀ q ∈ catalog,
        jsTrim q.query ≠ jsTrim (tableClickTab catalog newId tableName customSQL).query) →
      (tableClickTab catalog newId tableName customSQL).queryId = "") := by
  have hq : (tableClickTab catalog newId tableName customSQL).query
      = tableClickQuery tableName customSQL := rfl
  have hid : (tableClickTab catalog newId tableName customSQL).queryId
      = match findMatchingQuery catalog (tableClickQuery tableName customSQL) with
        | some matchingQuery => matchingQuery.id
        | none => "" := rfl
  rw [hq]
  refine ⟨?_, ?_, ?_⟩
  · rw [hid]
    unfold specCatalogRef
    cases findMatchingQuery catalog (tableClickQuery tableName customSQL) <;> rfl
  · intro pre m post hcat hpre hm
    rw [hid, hcat, findMatchingQuery_first _ m post hm pre hpre]
  · intro hno
    rw [hid, (findMatchingQuery_none_iff _ _).2 hno]

/-- Witness of C17, amended: a custom text that equals the second sample entry
after trimming gets its id, and the template text for `orders` gets the empty
string. -/
theorem tableClick_queryId_witness :
    (tableClickTab sampleCatalog "t9" "orders" (some " SELECT * FROM orders;\n")).queryId
      = "q2" ∧
    (tableClickTab sampleCatalog "t9" "orders" none).queryId = "" :=
  ⟨(tableClick_queryId sampleCatalog "t9" "orders" (some " SELECT * FROM orders;\n")).2.1
      [{ id := "q1", name := "All customers", query := "SELECT * FROM customers;" }]
      { id := "q2", name := "All orders", query := "SELECT * FROM orders;" } []
      rfl (by decide) (by decide),
    (tableClick_queryId sampleCatalog "t9" "orders" none).2.2 (by decide)⟩

/-- C18. The handler `handleTableClick` keeps the invariants of the tab
collection: it appends exactly one tab at the end of the unchanged collection,
the new tab has the generated id and becomes the active one, so the collection
is non-empty and `activeTabId` resolves to a member; and when the ids were
pairwise distinct and the generated id is new, the ids stay pairwise distinct. -/
theorem handleTableClick_invariants (catalog : List CatalogQuery) (innerWidth : Nat)
    (newId : String) (s : AppState) (tableName : String) (customSQL : Option String) :
    (handleTableClick catalog innerWidth newId s tableName customSQL).state.queryTabs
      = s.queryTabs ++ [tableClickTab catalog newId tableName customSQL] ∧
    (tableClickTab catalog newId tableName customSQL).id = newId ∧
    (handleTableClick catalog innerWidth newId s tableName customSQL).state.activeTabId
      = newId ∧
    (handleTableClick catalog innerWidth newId s tableName customSQL).state.queryTabs ≠ [] ∧
    (∃ t ∈ (handleTableClick catalog innerWidth newId s tableName customSQL).state.queryTabs,
      t.id = (handleTableClick catalog innerWidth newId s tableName
        customSQL).state.activeTabId) ∧
    ((s.queryTabs.map QueryTab.id).Nodup → newId ∉ s.queryTabs.map QueryTab.id →
      ((handleTableClick catalog innerWidth newId s tableName customSQL).state.queryTabs.map
        QueryTab.id).Nodup) := by
  obtain ⟨h1, h2⟩ := handleTableClick_queryTabs catalog innerWidth newId s tableName customSQL
  have hid : (tableClickTab catalog newId tableName customSQL).id = newId := rfl
  refine ⟨h1, hid, h2, ?_, ?_, ?_⟩
  · rw [h1]; simp
  · rw [h1, h2]
    exact ⟨tableClickTab catalog newId tableName customSQL, by simp, hid⟩
  · intro hnd hnew
    rw [h1, List.map_append, List.map_cons, List.map_nil, hid]
    apply List.Nodup.append hnd (List.nodup_singleton _)
    intro x hx hx'
    rw [List.mem_singleton] at hx'
    subst hx'
    exact hnew hx

/-- Witness of C18: a tab for `orders` with the new id `t9` in the sample
state. -/
theorem handleTableClick_invariants_witness :
    (sampleState.queryTabs.map QueryTab.id).Nodup ∧
    "t9" ∉ sampleState.queryTabs.map QueryTab.id ∧
    ((handleTableClick sampleCatalog 1024 "t9" sampleState "orders" none).state.queryTabs.map
      QueryTab.id).Nodup :=
  ⟨by decide, by decide,
    (handleTableClick_invariants sampleCatalog 1024 "t9" sampleState "orders" none).2.2.2.2.2
      (by decide) (by decide)⟩

/-- C19. Catalog selection respects renaming: for a catalog id and an active tab,
`handleQueryChange` gives the tab the entry's id and text, keeps its id and
`renamed` flag, keeps its name when `renamed` is true and gives it the entry's
display name otherwise, sets `currentQueryId` and `queryText` to the entry's id
and text, and leaves every tab with another id unchanged. -/
theorem handleQueryChange_selects (catalog : List CatalogQuery) (s : AppState)
    (queryId : String) (entry : CatalogQuery) (tab : QueryTab)
    (hEntry : findQuery catalog queryId = some entry)
    (hTab : findTab s.queryTabs s.activeTabId = some tab) :
    entry.id = queryId ∧
    findTab (handleQueryChange catalog s queryId).state.queryTabs s.activeTabId
      = some { id := tab.id
               name := if tab.renamed = true then tab.name else entry.name
               renamed := tab.renamed
               queryId := entry.id
               query := entry.query } ∧
    (handleQueryChange catalog s queryId).state.currentQueryId = entry.id ∧
    (handleQueryChange catalog s queryId).state.queryText = entry.query ∧
    (handleQueryChange catalog s queryId).state.activeTabId = s.activeTabId ∧
    OtherTabsUnchanged s.activeTabId s.queryTabs
      (handleQueryChange catalog s queryId).state.queryTabs := by
  obtain ⟨-, hid⟩ := findQuery_some catalog queryId entry hEntry
  refine ⟨hid, ?_, ?_, ?_, ?_, ?_⟩
  · simp only [handleQueryChange, hEntry, hTab]
    rw [findTab_updateQueryTab _ _ _ _ hTab]
    cases hr : tab.renamed <;> simp [TabPatch.mergeInto, hr, hid]
  · simp [handleQueryChange, hEntry, hid]
  · simp [handleQueryChange, hEntry]
  · simp [handleQueryChange, hEntry]
  · simp only [handleQueryChange, hEntry]
    exact updateQueryTab_others _ _ _

/-- Witness of C19: the second catalog entry is selected in the sample state,
whose active tab is not renamed. -/
theorem handleQueryChange_selects_witness :
    findQuery sampleCatalog "q2"
      = some { id := "q2", name := "All orders", query := "SELECT * FROM orders;" } ∧
    findTab sampleState.queryTabs sampleState.activeTabId = some sampleTab ∧
    findTab (handleQueryChange sampleCatalog sampleState "q2").state.queryTabs "t1"
      = some { id := "t1", name := "All orders", renamed := false, queryId := "q2"
               query := "SELECT * FROM orders;" } :=
  ⟨by decide, by decide,
    (handleQueryChange_selects sampleCatalog sampleState "q2"
      { id := "q2", name := "All orders", query := "SELECT * FROM orders;" } sampleTab
      (by decide) (by decide)).2.1⟩

/-- C20. One error at a time: the displayed error is the custom error when one is
set (a message, which is never the empty string) and the execution error
otherwise; and whatever custom error was there before, after
`handleExecuteQuery` it is absent or the validation message, after
`handleHistorySelect` it is absent or the history warning, and after
`handleQueryChange` with a catalog id it is absent. -/
theorem one_error_at_a_time (catalog : List CatalogQuery) (innerWidth : Nat) (s : AppState)
    (query : String) (newTab : Option QueryTab) (historyItem : HistoryItem)
    (shouldExecute : Bool) (queryId : String) :
    (∀ message, s.customError = some message → message ≠ "" →
      displayError s = some message) ∧
    (s.customError = none → displayError s = s.sqlError) ∧
    validationMessage ≠ "" ∧ historyWarning ≠ "" ∧
    (handleExecuteQuery catalog innerWidth s query).state.customError
      = (if (findMatchingQuery catalog query).isSome then none else some validationMessage) ∧
    (handleHistorySelect newTab s historyItem shouldExecute).state.customError
      = (if newTab.isSome then none else some historyWarning) ∧
    ((findQuery catalog queryId).isSome = true →
      (handleQueryChange catalog s queryId).state.customError = none) := by
  refine ⟨?_, ?_, by decide, by decide, ?_, ?_, ?_⟩
  · intro message hm hne
    simp [displayError, hm, hne]
  · intro hm
    simp [displayError, hm]
  · cases hq : findMatchingQuery catalog query with
    | none => simp [handleExecuteQuery, hq]
    | some m =>
      cases hTab : findTab s.queryTabs s.activeTabId with
      | none => simp [handleExecuteQuery, hq, hTab]
      | some tab =>
        simpa using (handleExecuteQuery_of_match catalog innerWidth s query m tab hq hTab).2
  · cases newTab <;> simp [handleHistorySelect]
  · intro hsome
    cases hq : findQuery catalog queryId with
    | none => simp [hq] at hsome
    | some q => simp [handleQueryChange, hq]

/-- Witness of C20: the sample state with a validation message left from an
earlier run and an execution error; the message is displayed, and a catalog
selection removes it. -/
theorem one_error_at_a_time_witness :
    displayError { sampleState with customError := some validationMessage,
                                    sqlError := some "boom" } = some validationMessage ∧
    (handleQueryChange sampleCatalog
      { sampleState with customError := some validationMessage, sqlError := some "boom" }
      "q2").state.customError = none :=
  ⟨(one_error_at_a_time sampleCatalog 1024
      { sampleState with customError := some validationMessage, sqlError := some "boom" }
      "SELECT 1;" none staleHistoryItem true "q2").1 validationMessage rfl (by decide),
    (one_error_at_a_time sampleCatalog 1024
      { sampleState with customError := some validationMessage, sqlError := some "boom" }
      "SELECT 1;" none staleHistoryItem true "q2").2.2.2.2.2.2 (by decide)⟩

/-- C21. The results toolbar faults on a table-browser tab: after the table
`orders` is opened in `resultsState` and the tab->text effect has run,
`currentQueryId` is the empty string the tab carries, no catalog entry has that
id, the toolbar is rendered (results, not loading, an active output tab), and
building its title is a `TypeError`, while the `currentQuery?.name` of the
download options is merely undefined. -/
theorem resultsTitle_faults_on_table_tab :
    resultsToolbarRendered (some ["1,Ada"]) false (some "o1") = true ∧
    tableOpenedState.activeTabId = "t9" ∧
    findTab tableOpenedState.queryTabs "t9"
      = some (tableClickTab sampleCatalog "t9" "orders" none) ∧
    tableOpenedState.currentQueryId = "" ∧
    findQuery sampleCatalog tableOpenedState.currentQueryId = none ∧
    resultsTitle sampleCatalog tableOpenedState = none ∧
    resultsTitle sampleCatalog resultsState = some "Results: All customers" ∧
    downloadQueryName sampleCatalog tableOpenedState = none := by
  decide

/-- C22. The auto-naming effect is guarded out within a commit: after the
text->tab effect body has run from any state, one of the two guards is set;
every dependency of the auto-naming effect that can change is a dependency of
the text->tab effect; and the auto-naming effect run on the state the text->tab
effect left makes no call and changes nothing. -/
theorem autoNaming_guarded_out_in_commit (s : AppState) :
    ((textToTabEffect s).state.isUpdatingTab = true ∨
      (textToTabEffect s).state.isUpdatingQuery = true) ∧
    (∀ d ∈ autoNamingDeps, d.isRef = true ∨ d ∈ textToTabDeps) ∧
    (autoNamingEffect (textToTabEffect s).state).tabUpdates = 0 ∧
    (autoNamingEffect (textToTabEffect s).state).calls = [] ∧
    (autoNamingEffect (textToTabEffect s).state).state = (textToTabEffect s).state := by
  have hguard : (textToTabEffect s).state.isUpdatingTab = true ∨
      (textToTabEffect s).state.isUpdatingQuery = true := by
    cases hA : s.isUpdatingTab
    · right
      simp only [textToTabEffect, hA]
      cases findTab s.queryTabs s.activeTabId with
      | none => rfl
      | some tab => simp only [Bool.false_eq_true, if_false]; split <;> rfl
    · left
      simp [textToTabEffect, hA]
  refine ⟨hguard, by decide, ?_, ?_, ?_⟩ <;>
    rcases hguard with h | h <;> simp [autoNamingEffect, h, Outcome.tabUpdates]

/-- C23. The clear-error effect: run with a custom error that is a message, it
sets the custom error to null and leaves the query text alone; `customError` is
in its dependency array; and the validation message set by a rejected
`handleExecuteQuery`, like the warning set by `handleHistorySelect` on a stale
entry, is cleared by the next run of the effect although the query text did not
change. -/
theorem clearError_clears_new_message (catalog : List CatalogQuery) (innerWidth : Nat)
    (s : AppState) (query : String) (historyItem : HistoryItem) (shouldExecute : Bool)
    (hNoMatch : ∀ q ∈ catalog, jsTrim q.query ≠ jsTrim query)
    (hRest : s.customError = none) :
    (∀ (t : AppState) (message : String), t.customError = some message → message ≠ "" →
      (clearErrorEffect t).state.customError = none ∧
      (clearErrorEffect t).state.queryText = t.queryText) ∧
    Dep.customError ∈ clearErrorDeps ∧
    ((handleExecuteQuery catalog innerWidth s query).state.customError
        = some validationMessage ∧
      (handleExecuteQuery catalog innerWidth s query).state.queryText = s.queryText ∧
      (clearErrorReaction s.queryText s.customError
        (handleExecuteQuery catalog innerWidth s query).state).state.customError = none) ∧
    ((handleHistorySelect none s historyItem shouldExecute).state.customError
        = some historyWarning ∧
      (handleHistorySelect none s historyItem shouldExecute).state.queryText = s.queryText ∧
      (clearErrorReaction s.queryText s.customError
        (handleHistorySelect none s historyItem shouldExecute).state).state.customError
          = none) := by
  have hv : (validationMessage != "") = true := by decide
  have hw : (historyWarning != "") = true := by decide
  have hnone : findMatchingQuery catalog query = none :=
    (findMatchingQuery_none_iff catalog query).2 hNoMatch
  refine ⟨?_, by decide, ?_, ?_⟩
  · intro t message ht hne
    simp [clearErrorEffect, ht, hne]
  · simp [handleExecuteQuery, hnone, clearErrorReaction, clearErrorEffect, hRest, hv]
  · simp [handleHistorySelect, clearErrorReaction, clearErrorEffect, hRest, hw]

/-- Witness of C23: "SELECT 1;" is rejected in the sample state, and the next
run of the clear-error effect removes the message. -/
theorem clearError_clears_new_message_witness :
    (∀ q ∈ sampleCatalog, jsTrim q.query ≠ jsTrim "SELECT 1;") ∧
    sampleState.customError = none ∧
    (handleExecuteQuery sampleCatalog 1024 sampleState "SELECT 1;").state.customError
      = some validationMessage ∧
    (clearErrorReaction sampleState.queryText sampleState.customError
      (handleExecuteQuery sampleCatalog 1024 sampleState "SELECT 1;").state).state.customError
        = none :=
  ⟨by decide, rfl,
    (clearError_clears_new_message sampleCatalog 1024 sampleState "SELECT 1;"
      staleHistoryItem true (by decide) rfl).2.2.1.1,
    (clearError_clears_new_message sampleCatalog 1024 sampleState "SELECT 1;"
      staleHistoryItem true (by decide) rfl).2.2.1.2.2⟩

/-- C24. Table-browser names are a fixed point of the heuristic: for a non-empty
table name without white space and without `;`, the name derived from
`SELECT * FROM <tableName> LIMIT 100;` is `SELECT <tableName>`, which is the name
`handleTableClick` gives the tab it opens with that text; so the auto-naming
effect, run on the state `handleTableClick` left with a fresh tab id, makes no
`updateQueryTab` call. -/
theorem tableTab_name_is_derived (catalog : List CatalogQuery) (innerWidth : Nat)
    (newId : String) (s : AppState) (tableName : String)
    (hNonEmpty : tableName.data ≠ [])
    (hChars : ∀ c ∈ tableName.data, isJsSpace c = false ∧ c ≠ ';')
    (hNew : newId ∉ s.queryTabs.map QueryTab.id) :
    deriveTabName ("SELECT * FROM " ++ tableName ++ " LIMIT 100;") = "SELECT " ++ tableName ∧
    (tableClickTab catalog newId tableName none).query
      = "SELECT * FROM " ++ tableName ++ " LIMIT 100;" ∧
    (tableClickTab catalog newId tableName none).name = "SELECT " ++ tableName ∧
    (autoNamingEffect
      (handleTableClick catalog innerWidth newId s tableName none).state).tabUpdates = 0 := by
  have hall : ∀ c ∈ tableName.data, isTargetChar c = true := by
    intro c hc
    obtain ⟨h1, h2⟩ := hChars c hc
    simp [isTargetChar, h1, h2]
  have hdata : ("SELECT * FROM " ++ tableName ++ " LIMIT 100;").data
      = "SELECT * FROM ".data ++ tableName.data ++ " LIMIT 100;".data := by
    simp [String.data_append]
  have hshape : "SELECT * FROM ".data ++ tableName.data ++ " LIMIT 100;".data
      = 'S' :: (("ELECT * FROM ".data ++ tableName.data ++ " LIMIT 100".data) ++ [';']) := by
    simp
  have htrim : jsTrimChars ("SELECT * FROM " ++ tableName ++ " LIMIT 100;").data
      = "SELECT * FROM ".data ++ tableName.data ++ " LIMIT 100;".data := by
    rw [hdata, hshape]
    exact jsTrimChars_eq_self 'S' _ ';' (by decide) (by decide)
  have hname : deriveTabName ("SELECT * FROM " ++ tableName ++ " LIMIT 100;")
      = "SELECT " ++ tableName := by
    unfold deriveTabName
    rw [htrim, nameRegexMatch_tableText tableName.data hNonEmpty hall]
    apply String.ext
    simp [String.data_append]
  have hquery : (tableClickTab catalog newId tableName none).query
      = "SELECT * FROM " ++ tableName ++ " LIMIT 100;" := rfl
  refine ⟨hname, hquery, rfl, ?_⟩
  obtain ⟨htabs, hactive⟩ := handleTableClick_queryTabs catalog innerWidth newId s tableName none
  have hfind : findTab (handleTableClick catalog innerWidth newId s tableName none).state.queryTabs
      (handleTableClick catalog innerWidth newId s tableName none).state.activeTabId
        = some (tableClickTab catalog newId tableName none) := by
    rw [htabs, hactive]
    exact findTab_append_new s.queryTabs (tableClickTab catalog newId tableName none) hNew
  cases hA : (handleTableClick catalog innerWidth newId s tableName none).state.isUpdatingTab
  · cases hB : (handleTableClick catalog innerWidth newId s tableName none).state.isUpdatingQuery
    · rw [autoNaming_of_named _ _ hA hB hfind (by rw [hquery]; exact hname)]
      rfl
    · simp [autoNamingEffect, hB, Outcome.tabUpdates]
  · simp [autoNamingEffect, hA, Outcome.tabUpdates]

/-- Witness of C24: the table `orders` opened in the sample state under the new
id `t9`. -/
theorem tableTab_name_is_derived_witness :
    "orders".data ≠ [] ∧
    (∀ c ∈ "orders".data, isJsSpace c = false ∧ c ≠ ';') ∧
    "t9" ∉ sampleState.queryTabs.map QueryTab.id ∧
    deriveTabName ("SELECT * FROM " ++ "orders" ++ " LIMIT 100;") = "SELECT " ++ "orders" ∧
    (autoNamingEffect
      (handleTableClick sampleCatalog 1024 "t9" sampleState "orders" none).state).tabUpdates
        = 0 :=
  ⟨by decide, by decide, by decide,
    (tableTab_name_is_derived sampleCatalog 1024 "t9" sampleState "orders"
      (by decide) (by decide) (by decide)).1,
    (tableTab_name_is_derived sampleCatalog 1024 "t9" sampleState "orders"
      (by decide) (by decide) (by decide)).2.2.2⟩

/-- C25. The auto-naming effect is idempotent: run with both guards clear on an
active tab that is not renamed, it makes at most one `updateQueryTab` call and
leaves the active tab with its query and with the name derived from that query;
run again on the state it left, it makes no call. -/
theorem autoNaming_idempotent (s : AppState) (tab : QueryTab)
    (hTab : s.isUpdatingTab = false) (hQuery : s.isUpdatingQuery = false)
    (hFind : findTab s.queryTabs s.activeTabId = some tab)
    (hNotRenamed : tab.renamed = false) :
    (autoNamingEffect s).tabUpdates ≤ 1 ∧
    (findTab (autoNamingEffect s).state.queryTabs s.activeTabId).map QueryTab.name
      = some (deriveTabName tab.query) ∧
    (findTab (autoNamingEffect s).state.queryTabs s.activeTabId).map QueryTab.query
      = some tab.query ∧
    (autoNamingEffect (autoNamingEffect s).state).tabUpdates = 0 ∧
    (autoNamingEffect (autoNamingEffect s).state).calls = [] := by
  by_cases hName : deriveTabName tab.query = tab.name
  · have h1 := autoNaming_of_named s tab hTab hQuery hFind hName
    rw [h1]
    simp only [Outcome.tabUpdates, h1, hFind, hName]
    simp
  · have hne : (deriveTabName tab.query != tab.name) = true := by simpa using hName
    have hst : autoNamingEffect s
        = { state := { s with queryTabs := updateQueryTab s.queryTabs s.activeTabId
                                { name := some (deriveTabName tab.query) } }
            calls := [Call.updateQueryTab s.activeTabId
                        { name := some (deriveTabName tab.query) }] } := by
      simp [autoNamingEffect, hTab, hQuery, hFind, hNotRenamed, hne]
    have hfind' := findTab_updateQueryTab s.activeTabId
      { name := some (deriveTabName tab.query) } tab s.queryTabs hFind
    have h2 := autoNaming_of_named
      { s with queryTabs := updateQueryTab s.queryTabs s.activeTabId
                { name := some (deriveTabName tab.query) } }
      (TabPatch.mergeInto { name := some (deriveTabName tab.query) } tab)
      hTab hQuery hfind' (by simp [TabPatch.mergeInto])
    rw [hst]
    simp only [h2, hfind']
    simp [Outcome.tabUpdates, Call.isUpdateQueryTab, TabPatch.mergeInto]

/-- Witness of C25: the sample state with its only tab still called
"New Query"; one run names it, the next makes no call. -/
theorem autoNaming_idempotent_witness :
    (unnamedState.isUpdatingTab = false ∧ unnamedState.isUpdatingQuery = false ∧
      findTab unnamedState.queryTabs unnamedState.activeTabId = some unnamedTab ∧
      unnamedTab.renamed = false) ∧
    (findTab (autoNamingEffect unnamedState).state.queryTabs unnamedState.activeTabId).map
      QueryTab.name = some (deriveTabName unnamedTab.query) ∧
    (autoNamingEffect (autoNamingEffect unnamedState).state).calls = [] :=
  ⟨⟨rfl, rfl, by decide, rfl⟩,
    (autoNaming_idempotent unnamedState unnamedTab rfl rfl (by decide) rfl).2.1,
    (autoNaming_idempotent unnamedState unnamedTab rfl rfl (by decide) rfl).2.2.2.2⟩

/-- C26, counterexample. In the text "SELECT\n* FROM orders" the line of the verb
is `SELECT` and holds no FROM at all, and the first token after the verb is `*`;
yet the derived name is "SELECT orders", not "SELECT *": the white space after
the verb takes the line break, and the lookup starts on the second line. -/
theorem from_lookup_counterexample :
    verbLine "SELECT\n* FROM orders" = "SELECT".data ∧
    jsTrimChars "SELECT\n* FROM orders".data = "SELECT".data ++ "\n* FROM orders".data ∧
    firstToken "\n* FROM orders".data = "*".data ∧
    deriveTabName "SELECT\n* FROM orders" = "SELECT orders" ∧
    deriveTabName "SELECT\n* FROM orders" ≠ "SELECT *" := by
  decide

/-- C26, amended. The name derived from "SELECT *\nFROM orders" is "SELECT *"; and
in general, when the trimmed text is a verb spelling, white space and then a
token, and no FROM followed by white space and a target stands on the line of
that token from the token on, the derived name is the verb, a blank and that
token. -/
theorem from_lookup_stays_on_line (text : String) (verb ws token post : List Char)
    (hText : jsTrimChars text.data = verb ++ (ws ++ (token ++ post)))
    (hVerb : IsVerbSpelling verb)
    (hWsNonEmpty : ws ≠ []) (hWs : ∀ c ∈ ws, isJsSpace c = true)
    (hTokenNonEmpty : token ≠ [])
    (hToken : ∀ c ∈ token, isJsSpace c = false ∧ c ≠ ';')
    (hPost : ∀ d, post.head? = some d → isJsSpace d = true ∨ d = ';')
    (hNoFrom : ¬ FromOnLine (token ++ post)) :
    deriveTabName "SELECT *\nFROM orders" = "SELECT *" ∧
    deriveTabName text = String.mk (verb ++ ' ' :: token) := by
  refine ⟨by decide, ?_⟩
  have hToken' : ∀ c ∈ token, isTargetChar c = true := by
    intro c hc
    obtain ⟨h1, h2⟩ := hToken c hc
    simp [isTargetChar, h1, h2]
  have hPost' : ∀ d, post.head? = some d → isTargetChar d = false := by
    intro d hd
    rcases hPost d hd with h | h
    · simp [isTargetChar, h]
    · simp [isTargetChar, h]
  unfold deriveTabName
  rw [hText, nameRegexMatch_of_no_from verb ws token post hVerb hWsNonEmpty hWs
    hTokenNonEmpty hToken' hPost' hNoFrom]

/-- Witness of C26, amended: the two-line text of the claim, split into the verb
`SELECT`, one blank, the token `*` and the rest. -/
theorem from_lookup_stays_on_line_witness :
    jsTrimChars "SELECT *\nFROM orders".data
      = "SELECT".data ++ (" ".data ++ ("*".data ++ "\nFROM orders".data)) ∧
    ¬ FromOnLine ("*".data ++ "\nFROM orders".data) ∧
    deriveTabName "SELECT *\nFROM orders" = String.mk ("SELECT".data ++ ' ' :: "*".data) :=
  ⟨by decide, no_from_on_star_line,
    (from_lookup_stays_on_line "SELECT *\nFROM orders" "SELECT".data " ".data "*".data
      "\nFROM orders".data (by decide) ⟨"SELECT", by decide, by decide⟩ (by decide)
      (by decide) (by decide) (by decide) (by decide) no_from_on_star_line).2⟩

end QueryMan
